import Mathlib

/-!
# Jupiter swap integration: a shallow embedding of the swap service

The JavaScript service `JupiterSwapService` (file
`src/services/jupiter/jupiter-swap.service.js`) talks to three outside
parties: the ledger RPC (`this.connection`), the aggregator HTTP API
(`axios`) and the wallet.  The embedding keeps every call to them explicit:

* the outside parties are the fields of `Env`, functions over an arbitrary
  ledger state `σ`;
* a method of the service is a `Prog σ α`, a function from the current
  `World` to a result (`Except Error α`) and the next `World`;
* every call that leaves the process is appended to `World.trace`, so that
  statements about what was or was not submitted are statements about a list.

Logging calls are left out: they neither change a value nor decide a branch.
-/

namespace JupiterSwap

/-! ## Values -/

/-- A thrown JavaScript `Error`; its message is all that callers look at. -/
structure Error where
  message : String
deriving DecidableEq, Repr

/-- Public keys and mints in their base58 text form (`toString()` is the identity). -/
abbrev PublicKey := String

abbrev Blockhash := String

/-- A transaction signature as returned by `sendRawTransaction`. -/
abbrev TxSignature := String

abbrev Bytes := List Nat

/-- The wrapped-SOL mint, `SOL_MINT` of the service file. -/
def SOL_MINT : PublicKey := "So11111111111111111111111111111111111111112"

/-- A mint argument as the service receives it: a `PublicKey` object or a string. -/
inductive MintArg where
  | key (k : PublicKey)
  | str (s : String)
deriving DecidableEq, Repr

/-- String form of a mint argument (`toString()`, or the string itself). -/
def MintArg.toString : MintArg → String
  | .key k => k
  | .str s => s

structure AccountInfo where
  lamports : Nat
  owner : PublicKey
deriving DecidableEq, Repr

structure TransactionInstruction where
  programId : PublicKey
  keys : List PublicKey
  data : Bytes
deriving DecidableEq, Repr

/-- The system program, which the token library lists among the keys of an
account-creation instruction. -/
def SYSTEM_PROGRAM_ID : PublicKey := "11111111111111111111111111111111"

/-- The token library's `createAssociatedTokenAccountInstruction`, with the
argument order of the call sites. -/
def createAssociatedTokenAccountInstruction
    (payer associatedToken owner mint programId associatedTokenProgramId : PublicKey) :
    TransactionInstruction :=
  { programId := associatedTokenProgramId
    keys := [payer, associatedToken, owner, mint, SYSTEM_PROGRAM_ID, programId]
    data := [] }

/-- A legacy `Transaction` object. -/
structure Transaction where
  instructions : List TransactionInstruction
  recentBlockhash : Option Blockhash
  feePayer : Option PublicKey
  signatures : List (PublicKey × Option TxSignature)
deriving DecidableEq, Repr

/-- The message of a `VersionedTransaction`; the fee payer is the first static key. -/
structure VersionedMessage where
  recentBlockhash : Blockhash
  numRequiredSignatures : Nat
  staticAccountKeys : List PublicKey
  compiled : Bytes
deriving DecidableEq, Repr

structure VersionedTransaction where
  message : VersionedMessage
  signatures : List (Option TxSignature)
deriving DecidableEq, Repr

/-- The fee payer of a versioned transaction. -/
def VersionedTransaction.feePayer (tx : VersionedTransaction) : Option PublicKey :=
  tx.message.staticAccountKeys.head?

/-- The value of the variable `tx` of `executeSwap`: an instance of one of the two classes. -/
inductive AnyTransaction where
  | versioned (tx : VersionedTransaction)
  | legacy (tx : Transaction)
deriving DecidableEq, Repr

/-- The test `tx instanceof VersionedTransaction`. -/
def AnyTransaction.isVersioned : AnyTransaction → Bool
  | .versioned _ => true
  | .legacy _ => false

/-- The bytes produced by `serialize()`, represented by the signed transaction they encode. -/
inductive RawTransaction where
  | versioned (tx : VersionedTransaction)
  | legacy (tx : Transaction)
deriving DecidableEq, Repr

/-- The blockhash inside a serialized transaction. -/
def RawTransaction.blockhash : RawTransaction → Option Blockhash
  | .versioned tx => some tx.message.recentBlockhash
  | .legacy tx => tx.recentBlockhash

structure SendOptions where
  skipPreflight : Bool
  preflightCommitment : String
  maxRetries : Option Nat
deriving DecidableEq, Repr

structure BlockhashWithExpiryBlockHeight where
  blockhash : Blockhash
  lastValidBlockHeight : Nat
deriving DecidableEq, Repr

/-- The first argument of `confirmTransaction`. -/
structure ConfirmStrategy where
  signature : TxSignature
  blockhash : Blockhash
  lastValidBlockHeight : Nat
deriving DecidableEq, Repr

/-- A non-null `err` of a confirmation: the name of an error variant (a string),
or an object, kept as a text that tells its fields. -/
inductive TransactionError where
  | variant (name : String)
  | object (fields : String)
deriving DecidableEq, Repr

/-- What string interpolation gives for an `err`: the name itself for a string,
the fixed text "[object Object]" for every object. -/
def TransactionError.interpolated : TransactionError → String
  | .variant name => name
  | .object _ => "[object Object]"

/-- The truth value of an `err` in a condition: an object is truthy, a string
is truthy unless it is empty. -/
def TransactionError.truthy : TransactionError → Bool
  | .variant name => name != ""
  | .object _ => true

/-- The field `confirmation.value`. -/
structure SignatureResult where
  err : Option TransactionError
deriving DecidableEq, Repr

structure Confirmation where
  value : SignatureResult
deriving DecidableEq, Repr

/-- A `URL` object: the address up to the query, the pairs that its
`searchParams` holds, and the fragment (with its '#', or empty). -/
structure Url where
  beforeQuery : String
  searchParams : List (String × String)
  fragment : String
deriving DecidableEq, Repr

/-- The hexadecimal digit of a number below 16, in upper case. -/
def hexDigit (n : Nat) : Char :=
  if n < 10 then Char.ofNat (48 + n) else Char.ofNat (55 + n)

/-- A byte written as a percent sign and two hexadecimal digits. -/
def percentEncodeByte (byte : Nat) : List Char :=
  ['%', hexDigit (byte / 16), hexDigit (byte % 16)]

/-- The bytes of a code point in UTF-8. -/
def utf8Bytes (c : Nat) : List Nat :=
  if c < 128 then [c]
  else if c < 2048 then [192 + c / 64, 128 + c % 64]
  else if c < 65536 then [224 + c / 4096, 128 + c / 64 % 64, 128 + c % 64]
  else [240 + c / 262144, 128 + c / 4096 % 64, 128 + c / 64 % 64, 128 + c % 64]

/-- One character in the encoding that `URLSearchParams` writes: letters,
digits and `*`, `-`, `.`, `_` as they are, a space as `+`, any other character
as its UTF-8 bytes, percent-encoded. -/
def formEncodeChar (c : Char) : List Char :=
  if c.isAlphanum || c == '*' || c == '-' || c == '.' || c == '_' then [c]
  else if c == ' ' then ['+']
  else ((utf8Bytes c.toNat).map percentEncodeByte).flatten

/-- A name or a value as `URLSearchParams` writes it. -/
def formUrlEncode (text : String) : String :=
  String.mk (text.data.map formEncodeChar).flatten

/-- The query that `URLSearchParams` writes for its pairs. -/
def serializeSearchParams (params : List (String × String)) : String :=
  "&".intercalate (params.map (fun pair => formUrlEncode pair.1 ++ "=" ++ formUrlEncode pair.2))

/-- The call `url.searchParams.append(name, value)`. -/
def Url.append (url : Url) (name value : String) : Url :=
  { url with searchParams := url.searchParams ++ [(name, value)] }

/-- The call `url.toString()` after the query was written from `searchParams`. -/
def Url.toString (url : Url) : String :=
  url.beforeQuery ++
    (if url.searchParams.isEmpty then "" else "?" ++ serializeSearchParams url.searchParams) ++
    url.fragment

/-- The body of the quote endpoint's answer, passed on as received. -/
structure QuoteResponse where
  outAmount : Option Int
  other : List (String × String)
deriving DecidableEq, Repr

/-- The object posted to the transaction-build endpoint. -/
structure SwapRequestBody where
  quoteResponse : QuoteResponse
  userPublicKey : String
  wrapUnwrapSOL : Bool
  asLegacyTransaction : Bool
  devnet : Bool
  computeUnitPriceMicroLamports : Nat
deriving DecidableEq, Repr

/-- The body of the transaction-build endpoint's answer. -/
structure SwapResponse where
  swapTransaction : Option String
  other : List (String × String)
deriving DecidableEq, Repr

/-- A wallet: a keypair, possibly with an adapter method `signTransaction`,
which may change the transaction it is given in any way. -/
structure Wallet where
  publicKey : PublicKey
  secretKey : Bytes
  signTransaction : Option (Transaction → Except Error Transaction)

/-- The value stored in `this.currentSwapParams`. -/
structure SwapParams where
  userPublicKey : PublicKey
  inputMint : MintArg
  outputMint : MintArg
  amount : String
  slippageBps : Nat
deriving DecidableEq, Repr

/-- The value returned by `verifyTokenAccounts`. -/
structure TokenAccounts where
  inputAccount : PublicKey
  outputAccount : PublicKey
deriving DecidableEq, Repr

/-! ## Constants (`src/config/constants.js`) -/

structure TransactionConfig where
  CONFIRMATION_COMMITMENT : String
  MAX_RETRIES : Nat
  RETRY_DELAY : Nat
  PREFLIGHT_COMMITMENT : String

def TRANSACTION_CONFIG : TransactionConfig :=
  { CONFIRMATION_COMMITMENT := "confirmed"
    MAX_RETRIES := 3
    RETRY_DELAY := 1000
    PREFLIGHT_COMMITMENT := "processed" }

structure ProgramIds where
  JUPITER_V6 : String
  TOKEN_LEDGER : String
  VERSIONED_TRANSACTION : Bool
  TOKEN_PROGRAM : String
  ASSOCIATED_TOKEN_PROGRAM : String
deriving DecidableEq, Repr

/-- The table `JUPITER_CONFIG.PROGRAM_IDS`: a lookup by key, undefined for any
key other than the two listed. -/
def PROGRAM_IDS (key : String) : Option ProgramIds :=
  if key = "MAINNET" then
    some { JUPITER_V6 := "JUP6LkbZbjS1jKKwapdHNy74zcZ3tLUZoi5QNyVTaV4"
           TOKEN_LEDGER := "JUP2jxvXaqu7NQY1GmNF4m1vodw12LVXYxbFL2uJvfo"
           VERSIONED_TRANSACTION := true
           TOKEN_PROGRAM := "TokenkegQfeZyiNwAJbNbGKPFXCWuBvf9Ss623VQ5DA"
           ASSOCIATED_TOKEN_PROGRAM := "ATokenGPvbdGVxr1b2hvZbsiqW5xWH25efTNsLJA8knL" }
  else if key = "TESTNET" then
    some { JUPITER_V6 := "JUP6LkbZbjS1jKKwapdHNy74zcZ3tLUZoi5QNyVTaV4"
           TOKEN_LEDGER := "JUP2jxvXaqu7NQY1GmNF4m1vodw12LVXYxbFL2uJvfo"
           VERSIONED_TRANSACTION := false
           TOKEN_PROGRAM := "TokenkegQfeZyiNwAJbNbGKPFXCWuBvf9Ss623VQ5DA"
           ASSOCIATED_TOKEN_PROGRAM := "ATokenGPvbdGVxr1b2hvZbsiqW5xWH25efTNsLJA8knL" }
  else none

/-- The flag `JUPITER_CONFIG.TOKEN_VALIDATION.WRAP_UNWRAP_SOL`. -/
def WRAP_UNWRAP_SOL : Bool := true

/-- The flag `JUPITER_CONFIG.TRANSACTION_OPTIONS.SKIP_PREFLIGHT`. -/
def SKIP_PREFLIGHT : Bool := true

/-- The constant `JUPITER_CONFIG.TRANSACTION_OPTIONS.PRIORITY_FEE_BPS`. -/
def PRIORITY_FEE_BPS : Nat := 0

/-- The string method `toUpperCase`, on the characters a network name is written with. -/
def toUpperCase (s : String) : String := String.mk (s.data.map Char.toUpper)

/-! ## The outside world -/

/-- What leaves the process, in the order it leaves. -/
inductive Event where
  | getAccountInfo (address : PublicKey)
  | getLatestBlockhash (commitment : Option String)
  | walletSignTransaction (tx : Transaction)
  | transactionSign (tx : Transaction)
  | versionedSign (tx : VersionedTransaction)
  | sendRawTransaction (raw : RawTransaction) (options : SendOptions)
  | confirmTransaction (strategy : ConfirmStrategy) (commitment : String)
  | axiosGet (url : String)
  | axiosPost (url : String) (body : SwapRequestBody)
deriving DecidableEq, Repr

/-- The libraries and services the code calls.  The ledger and the aggregator
answer from a state `σ` that each call may change. -/
structure Env (σ : Type) where
  /-- The constructor `new PublicKey(string)`; it throws on a malformed key. -/
  newPublicKey : String → Except Error PublicKey
  /-- The token library's address derivation. -/
  getAssociatedTokenAddress :
    (mint owner : PublicKey) → (allowOwnerOffCurve : Bool) →
    (programId associatedTokenProgramId : PublicKey) → Except Error PublicKey
  /-- The call `Buffer.from(text, 'base64')`, which never throws. -/
  base64Decode : String → Bytes
  /-- The decoder `VersionedTransaction.deserialize`. -/
  versionedDeserialize : Bytes → Except Error VersionedTransaction
  /-- The decoder `Transaction.from`. -/
  transactionFrom : Bytes → Except Error Transaction
  /-- The constructor `new URL(text)`: the parsed address, or a throw on a malformed one. -/
  parseUrl : String → Except Error Url
  /-- The signature list that the legacy method `sign(keypair)` leaves on a
  transaction, from the keypair's secret key. -/
  legacySignatures : Bytes → Transaction → List (PublicKey × Option TxSignature)
  /-- The signature list that the versioned method `sign([keypair])` leaves on a
  transaction; it throws when the keypair is not a required signer. -/
  versionedSignatures :
    Bytes → PublicKey → VersionedTransaction → Except Error (List (Option TxSignature))
  /-- The check that the legacy method `serialize()` makes before encoding
  (all required signatures present and valid); it throws when the check fails. -/
  legacySerializeCheck : Transaction → Except Error Unit
  getAccountInfo : PublicKey → σ → Except Error (Option AccountInfo) × σ
  getLatestBlockhash : Option String → σ → Except Error BlockhashWithExpiryBlockHeight × σ
  sendRawTransaction : RawTransaction → SendOptions → σ → Except Error TxSignature × σ
  confirmTransaction : ConfirmStrategy → String → σ → Except Error Confirmation × σ
  axiosGet : String → σ → Except Error QuoteResponse × σ
  axiosPost : String → SwapRequestBody → σ → Except Error SwapResponse × σ

/-- The mutable state a method runs in: the ledger, the field
`this.currentSwapParams`, and the calls made so far. -/
structure World (σ : Type) where
  ledger : σ
  currentSwapParams : Option SwapParams
  trace : List Event

/-- An asynchronous method: it ends with a value or a thrown error, and a new world. -/
def Prog (σ : Type) (α : Type) : Type := World σ → Except Error α × World σ

namespace Prog

variable {σ α β : Type}

def pure (a : α) : Prog σ α := fun w => (.ok a, w)

def bind (p : Prog σ α) (f : α → Prog σ β) : Prog σ β := fun w =>
  match p w with
  | (.ok a, w1) => f a w1
  | (.error e, w1) => (.error e, w1)

instance : Monad (Prog σ) where
  pure := Prog.pure
  bind := Prog.bind

/-- The statement `throw e`. -/
def throw (e : Error) : Prog σ α := fun w => (.error e, w)

/-- A library call that returns or throws without touching the world. -/
def ofExcept (r : Except Error α) : Prog σ α := fun w => (r, w)

/-- Record a call in the trace. -/
def emit (ev : Event) : Prog σ Unit := fun w => (.ok (), { w with trace := w.trace ++ [ev] })

/-- A call answered from the ledger state. -/
def call (ev : Event) (f : σ → Except Error α × σ) : Prog σ α := fun w =>
  match f w.ledger with
  | (r, l) => (r, { w with ledger := l, trace := w.trace ++ [ev] })

/-- A block `try { p } catch (error) { h error }`. -/
def tryCatch (p : Prog σ α) (h : Error → Prog σ α) : Prog σ α := fun w =>
  match p w with
  | (.ok a, w1) => (.ok a, w1)
  | (.error e, w1) => h e w1

/-- The call `Promise.all([p, q])` on two calls already started: both run, in
order, and the first rejection is the result. -/
def all2 (p : Prog σ α) (q : Prog σ β) : Prog σ (α × β) := fun w =>
  match p w with
  | (ra, w1) =>
    match q w1 with
    | (rb, w2) =>
      match ra, rb with
      | .ok a, .ok b => (.ok (a, b), w2)
      | .error e, _ => (.error e, w2)
      | .ok _, .error e => (.error e, w2)

end Prog

/-! ## The service (`src/services/jupiter/jupiter-swap.service.js`) -/

/-- The fields of a service instance that are set once, by the constructor. -/
structure Service where
  apiUrl : String
  network : String

variable {σ : Type}

/-- The error of reading a property of `undefined`. -/
def undefinedPropertyError : Error := ⟨"Cannot read properties of undefined"⟩

/-- The expression `JUPITER_CONFIG.PROGRAM_IDS[this.network.toUpperCase()]`, at
the point where a property of it is read. -/
def programIdsOf (svc : Service) : Except Error ProgramIds :=
  match PROGRAM_IDS (toUpperCase svc.network) with
  | some ids => .ok ids
  | none => .error undefinedPropertyError

/-- The conversion `x instanceof PublicKey ? x : new PublicKey(x)`. -/
def toPublicKey (E : Env σ) : MintArg → Except Error PublicKey
  | .key k => .ok k
  | .str s => E.newPublicKey s

/-- The legacy method `transaction.sign(keypair)`: it needs the blockhash and the
fee payer, and replaces the signature list. -/
def Transaction.sign (E : Env σ) (tx : Transaction) (wallet : Wallet) : Except Error Transaction :=
  match tx.recentBlockhash, tx.feePayer with
  | none, _ => .error ⟨"Transaction recentBlockhash required"⟩
  | some _, none => .error ⟨"Transaction fee payer required"⟩
  | some _, some _ => .ok { tx with signatures := E.legacySignatures wallet.secretKey tx }

/-- The legacy method `transaction.serialize()`. -/
def Transaction.serialize (E : Env σ) (tx : Transaction) : Except Error RawTransaction :=
  match E.legacySerializeCheck tx with
  | .ok _ => .ok (.legacy tx)
  | .error e => .error e

/-- The versioned method `tx.sign([keypair])`: only the signature list changes. -/
def VersionedTransaction.sign (E : Env σ) (tx : VersionedTransaction) (wallet : Wallet) :
    Except Error VersionedTransaction :=
  match E.versionedSignatures wallet.secretKey wallet.publicKey tx with
  | .ok sigs => .ok { tx with signatures := sigs }
  | .error e => .error e

/-- The versioned method `tx.serialize()`, which makes no check. -/
def VersionedTransaction.serialize (tx : VersionedTransaction) : RawTransaction :=
  .versioned tx

/-- The statement that occurs three times in the file:
`if (wallet.signTransaction) await wallet.signTransaction(tx) else tx.sign(wallet)`.
The transaction object is changed in place; the result is its new value. -/
def signWithWallet (E : Env σ) (wallet : Wallet) (tx : Transaction) : Prog σ Transaction :=
  match wallet.signTransaction with
  | some f => do
      Prog.emit (.walletSignTransaction tx)
      Prog.ofExcept (f tx)
  | none => do
      Prog.emit (.transactionSign tx)
      Prog.ofExcept (Transaction.sign E tx wallet)

/-- The options of the two account-creation submissions. -/
def creationSendOptions : SendOptions :=
  { skipPreflight := false, preflightCommitment := "confirmed", maxRetries := none }

/-- The body of each of the two `if` blocks of `verifyTokenAccounts` (lines 325-354
and 356-385), which differ in the address and the mint only. -/
def createTokenAccount (E : Env σ) (wallet : Wallet)
    (accountAddress mint tokenProgramId associatedTokenProgramId : PublicKey) : Prog σ Unit := do
  let transaction : Transaction :=
    { instructions :=
        [createAssociatedTokenAccountInstruction wallet.publicKey accountAddress
          wallet.publicKey mint tokenProgramId associatedTokenProgramId]
      recentBlockhash := none
      feePayer := none
      signatures := [] }
  let latest ← Prog.call (.getLatestBlockhash none) (E.getLatestBlockhash none)
  let transaction := { transaction with
    recentBlockhash := some latest.blockhash, feePayer := some wallet.publicKey }
  let transaction ← signWithWallet E wallet transaction
  let raw ← Prog.ofExcept (Transaction.serialize E transaction)
  let _ ← Prog.call (.sendRawTransaction raw creationSendOptions)
    (E.sendRawTransaction raw creationSendOptions)
  pure ()

/-- The method `verifyTokenAccounts(wallet, inputMint, outputMint)`. -/
def verifyTokenAccounts (E : Env σ) (svc : Service) (wallet : Wallet)
    (inputMint outputMint : MintArg) : Prog σ TokenAccounts :=
  Prog.tryCatch (do
    let inputMint ← Prog.ofExcept (toPublicKey E inputMint)
    let outputMint ← Prog.ofExcept (toPublicKey E outputMint)
    let ids ← Prog.ofExcept (programIdsOf svc)
    let tokenProgramId ← Prog.ofExcept (E.newPublicKey ids.TOKEN_PROGRAM)
    let ids ← Prog.ofExcept (programIdsOf svc)
    let associatedTokenProgramId ← Prog.ofExcept (E.newPublicKey ids.ASSOCIATED_TOKEN_PROGRAM)
    let (inputAccountAddress, outputAccountAddress) ← Prog.all2
      (Prog.ofExcept (E.getAssociatedTokenAddress inputMint wallet.publicKey false
        tokenProgramId associatedTokenProgramId))
      (Prog.ofExcept (E.getAssociatedTokenAddress outputMint wallet.publicKey false
        tokenProgramId associatedTokenProgramId))
    let (inputAccountInfo, outputAccountInfo) ← Prog.all2
      (Prog.call (.getAccountInfo inputAccountAddress) (E.getAccountInfo inputAccountAddress))
      (Prog.call (.getAccountInfo outputAccountAddress) (E.getAccountInfo outputAccountAddress))
    if inputAccountInfo.isNone && inputMint != SOL_MINT then
      createTokenAccount E wallet inputAccountAddress inputMint tokenProgramId
        associatedTokenProgramId
    if outputAccountInfo.isNone && outputMint != SOL_MINT then
      createTokenAccount E wallet outputAccountAddress outputMint tokenProgramId
        associatedTokenProgramId
    pure
      { inputAccount := if inputMint == SOL_MINT then wallet.publicKey else inputAccountAddress
        outputAccount := if outputMint == SOL_MINT then wallet.publicKey else outputAccountAddress })
    (fun error => Prog.throw error)

/-- The address that `getQuote` requests: the parsed address with the seven
query parameters appended in the order of lines 80-86, written out by `toString()`. -/
def quoteUrl (url : Url) (inputMint outputMint : MintArg) (amount : String)
    (slippageBps : Nat) : String :=
  let url := url.append "inputMint" inputMint.toString
  let url := url.append "outputMint" outputMint.toString
  let url := url.append "amount" amount
  let url := url.append "slippageBps" (toString slippageBps)
  let url := url.append "onlyDirectRoutes" "true"
  let url := url.append "platformFeeBps" "0"
  let url := url.append "maxAccounts" "8"
  url.toString

/-- The method `getQuote(inputMint, outputMint, amount, slippageBps)`. -/
def getQuote (E : Env σ) (svc : Service) (inputMint outputMint : MintArg) (amount : String)
    (slippageBps : Nat) : Prog σ QuoteResponse := do
  let parsed ← Prog.ofExcept (E.parseUrl (svc.apiUrl ++ "/quote"))
  let url := quoteUrl parsed inputMint outputMint amount slippageBps
  let data ← Prog.call (.axiosGet url) (E.axiosGet url)
  pure data

/-- The assignment `this.currentSwapParams = params`. -/
def setCurrentSwapParams (params : SwapParams) : Prog σ Unit := fun w =>
  (.ok (), { w with currentSwapParams := some params })

/-- The read of `this.currentSwapParams`. -/
def getCurrentSwapParams : Prog σ (Option SwapParams) := fun w => (.ok w.currentSwapParams, w)

/-- The method `createSwapTransaction(userPublicKey, inputMint, outputMint, amount,
slippageBps, useLegacyTransaction = false)`; an omitted last argument is `none`. -/
def createSwapTransaction (E : Env σ) (svc : Service) (userPublicKey : PublicKey)
    (inputMint outputMint : MintArg) (amount : String) (slippageBps : Nat)
    (useLegacyTransaction : Option Bool) : Prog σ SwapResponse :=
  let _useLegacyTransaction : Bool := useLegacyTransaction.getD false
  Prog.tryCatch (do
    setCurrentSwapParams
      { userPublicKey := userPublicKey, inputMint := inputMint, outputMint := outputMint,
        amount := amount, slippageBps := slippageBps }
    let quoteResponse ← getQuote E svc inputMint outputMint amount slippageBps
    let ids ← Prog.ofExcept (programIdsOf svc)
    let swapRequestBody : SwapRequestBody :=
      { quoteResponse := quoteResponse
        userPublicKey := userPublicKey
        wrapUnwrapSOL := WRAP_UNWRAP_SOL
        asLegacyTransaction := !ids.VERSIONED_TRANSACTION
        devnet := svc.network == "devnet"
        computeUnitPriceMicroLamports := PRIORITY_FEE_BPS }
    let data ← Prog.call (.axiosPost (svc.apiUrl ++ "/swap") swapRequestBody)
      (E.axiosPost (svc.apiUrl ++ "/swap") swapRequestBody)
    pure data)
    (fun error => Prog.throw error)

/-- The nested `try`/`catch` of `executeSwap` (lines 197-211): the versioned
decoder first, the legacy decoder when it throws, the legacy decoder's error
when both throw. -/
def deserializeTransaction (E : Env σ) (serializedTransaction : Bytes) :
    Except Error AnyTransaction :=
  match E.versionedDeserialize serializedTransaction with
  | .ok tx => .ok (.versioned tx)
  | .error _ =>
    match E.transactionFrom serializedTransaction with
    | .ok tx => .ok (.legacy tx)
    | .error error => .error error

/-- The options of the swap submission. -/
def swapSendOptions : SendOptions :=
  { skipPreflight := SKIP_PREFLIGHT
    preflightCommitment := TRANSACTION_CONFIG.CONFIRMATION_COMMITMENT
    maxRetries := some TRANSACTION_CONFIG.MAX_RETRIES }

/-- The branch on `tx instanceof VersionedTransaction` (lines 219-233) followed by
`tx.serialize()` (line 236). -/
def signAndSerialize (E : Env σ) (wallet : Wallet) (tx : AnyTransaction) (blockhash : Blockhash) :
    Prog σ RawTransaction :=
  match tx with
  | .versioned tx => do
      Prog.emit (.versionedSign tx)
      let tx ← Prog.ofExcept (VersionedTransaction.sign E tx wallet)
      pure (VersionedTransaction.serialize tx)
  | .legacy tx => do
      let tx := { tx with recentBlockhash := some blockhash, feePayer := some wallet.publicKey }
      let tx ← signWithWallet E wallet tx
      Prog.ofExcept (Transaction.serialize E tx)

/-- Lines 193-262 of `executeSwap`: decode the payload, fetch the latest
blockhash, sign, serialize, submit, await the confirmation, check its `err`. -/
def sendSwap (E : Env σ) (wallet : Wallet) (swapTransaction : String) : Prog σ TxSignature := do
  let serializedTransaction := E.base64Decode swapTransaction
  let tx ← Prog.ofExcept (deserializeTransaction E serializedTransaction)
  let latest ← Prog.call
    (.getLatestBlockhash (some TRANSACTION_CONFIG.CONFIRMATION_COMMITMENT))
    (E.getLatestBlockhash (some TRANSACTION_CONFIG.CONFIRMATION_COMMITMENT))
  let rawTransaction ← signAndSerialize E wallet tx latest.blockhash
  let signature ← Prog.call (.sendRawTransaction rawTransaction swapSendOptions)
    (E.sendRawTransaction rawTransaction swapSendOptions)
  let strategy : ConfirmStrategy :=
    { signature := signature, blockhash := latest.blockhash,
      lastValidBlockHeight := latest.lastValidBlockHeight }
  let confirmation ← Prog.call
    (.confirmTransaction strategy TRANSACTION_CONFIG.CONFIRMATION_COMMITMENT)
    (E.confirmTransaction strategy TRANSACTION_CONFIG.CONFIRMATION_COMMITMENT)
  match confirmation.value.err with
  | some err =>
    if err.truthy then Prog.throw ⟨"Transaction failed: " ++ err.interpolated⟩
    else pure signature
  | none => pure signature

/-- The method `executeSwap(wallet, swapTransaction)`.  The accounts that
`verifyTokenAccounts` returns are `PublicKey` objects, so the test
`!inputAccount || !outputAccount` of line 188 is never true. -/
def executeSwap (E : Env σ) (svc : Service) (wallet : Wallet) (swapTransaction : String) :
    Prog σ TxSignature :=
  Prog.tryCatch (do
    let current ← getCurrentSwapParams
    match current with
    | none => Prog.throw ⟨"No current swap parameters found"⟩
    | some currentSwapParams =>
      let _accounts ← verifyTokenAccounts E svc wallet currentSwapParams.inputMint
        currentSwapParams.outputMint
      sendSwap E wallet swapTransaction)
    (fun error => Prog.throw error)

/-! ## Reading a trace -/

/-- The account and mint that a serialized transaction creates, when the
transaction is exactly one account-creation instruction. -/
def RawTransaction.createdAccount : RawTransaction → Option (PublicKey × PublicKey)
  | .versioned _ => none
  | .legacy tx =>
    match tx.instructions with
    | [ins] =>
      match ins.keys with
      | [payer, associatedToken, owner, mint, _, programId] =>
        if ins = createAssociatedTokenAccountInstruction payer associatedToken owner mint
            programId ins.programId then
          some (associatedToken, mint)
        else none
      | _ => none
    | _ => none

/-- One entry for each transaction submitted, in order: the account and mint it
creates, or `none` for a submission that is not an account creation. -/
def creationLog : List Event → List (Option (PublicKey × PublicKey))
  | [] => []
  | .sendRawTransaction raw _ :: rest => raw.createdAccount :: creationLog rest
  | _ :: rest => creationLog rest

/-- The confirmation requests of a trace, in order. -/
def confirmations : List Event → List ConfirmStrategy
  | [] => []
  | .confirmTransaction strategy _ :: rest => strategy :: confirmations rest
  | _ :: rest => confirmations rest

/-- The transactions submitted in a trace, in order. -/
def submitted : List Event → List RawTransaction
  | [] => []
  | .sendRawTransaction raw _ :: rest => raw :: submitted rest
  | _ :: rest => submitted rest

/-- Whether an event is a signing step. -/
def Event.isSigning : Event → Bool
  | .walletSignTransaction _ => true
  | .transactionSign _ => true
  | .versionedSign _ => true
  | _ => false

/-! ## Assumptions on the outside world -/

/-- Every call to the ledger RPC that account verification makes is answered:
every account lookup, every blockhash request, and every submission of an
account creation. -/
structure LedgerAnswers (E : Env σ) : Prop where
  getAccountInfo : ∀ a s, ∃ r, (E.getAccountInfo a s).1 = .ok r
  getLatestBlockhash : ∀ c s, ∃ r, (E.getLatestBlockhash c s).1 = .ok r
  sendRawTransaction : ∀ raw o s, raw.createdAccount.isSome = true →
    ∃ r, (E.sendRawTransaction raw o s).1 = .ok r

/-! ## A small ledger for concrete runs -/

/-- The state of the small ledger: the addresses that have account info, the
accounts whose creation was submitted and is not yet confirmed, and the number
of submissions received. -/
structure SimLedger where
  accounts : List PublicKey
  pending : List PublicKey
  received : Nat
deriving DecidableEq, Repr

/-- What the small ledger and the aggregator answer. -/
structure SimConfig where
  /-- The answer to the submission number `n` (from 0). -/
  sendAnswer : Nat → Except Error TxSignature
  /-- The `err` field of every confirmation. -/
  confirmErr : Option TransactionError
  /-- The latest blockhash of the network. -/
  latest : BlockhashWithExpiryBlockHeight
  /-- The answer of the quote endpoint. -/
  quote : Except Error QuoteResponse
  /-- The answer of the transaction-build endpoint. -/
  swap : Except Error SwapResponse

/-- A versioned transaction as the aggregator builds it, on the aggregator's blockhash. -/
def simVersionedTx : VersionedTransaction :=
  { message :=
      { recentBlockhash := "aggregatorHash", numRequiredSignatures := 1,
        staticAccountKeys := ["owner"], compiled := [7] }
    signatures := [none] }

/-- A legacy transaction as the aggregator builds it. -/
def simLegacyTx : Transaction :=
  { instructions := [{ programId := "JUP", keys := ["owner"], data := [7] }]
    recentBlockhash := some "aggregatorHash"
    feePayer := some "owner"
    signatures := [] }

/-- The small world: payload "V" decodes as versioned only, "L" as legacy only,
"B" as both, anything else as neither.  A creation becomes visible to
`getAccountInfo` when a confirmation is awaited, not when it is submitted. -/
def simEnv (cfg : SimConfig) : Env SimLedger where
  newPublicKey := fun s => .ok s
  getAssociatedTokenAddress := fun mint owner _ _ _ => .ok (owner ++ "/" ++ mint)
  base64Decode := fun s => s.data.map Char.toNat
  versionedDeserialize := fun b =>
    if b = [86] ∨ b = [66] then .ok simVersionedTx else .error ⟨"versioned: bad payload"⟩
  transactionFrom := fun b =>
    if b = [76] ∨ b = [66] then .ok simLegacyTx else .error ⟨"legacy: bad payload"⟩
  parseUrl := fun s => .ok { beforeQuery := s, searchParams := [], fragment := "" }
  legacySignatures := fun _ tx => [(tx.feePayer.getD "", some "signed")]
  versionedSignatures := fun _ _ _ => .ok [some "signed"]
  legacySerializeCheck := fun _ => .ok ()
  getAccountInfo := fun a s =>
    (.ok (if a ∈ s.accounts then some { lamports := 1, owner := "token" } else none), s)
  getLatestBlockhash := fun _ s => (.ok cfg.latest, s)
  sendRawTransaction := fun raw _ s =>
    match cfg.sendAnswer s.received with
    | .ok sig =>
      (.ok sig, { s with
        received := s.received + 1
        pending := s.pending ++ (raw.createdAccount.map (fun c => c.1)).toList })
    | .error e => (.error e, { s with received := s.received + 1 })
  confirmTransaction := fun _ _ s =>
    (.ok { value := { err := cfg.confirmErr } },
      { s with accounts := s.accounts ++ s.pending, pending := [] })
  axiosGet := fun _ s => (cfg.quote, s)
  axiosPost := fun _ _ s => (cfg.swap, s)

/-- A configuration in which every call is answered and no transaction fails. -/
def simOk : SimConfig :=
  { sendAnswer := fun _ => .ok "sig"
    confirmErr := none
    latest := { blockhash := "freshHash", lastValidBlockHeight := 500 }
    quote := .ok { outAmount := some 42, other := [] }
    swap := .ok { swapTransaction := some "V", other := [] } }

/-- A keypair wallet (no adapter method). -/
def simWallet : Wallet := { publicKey := "owner", secretKey := [1], signTransaction := none }

/-- The service of the integration test: network 'mainnet'. -/
def simService : Service := { apiUrl := "https://quote-api.jup.ag/v6", network := "mainnet" }

/-- The USDC mint of the integration test. -/
def USDC_MINT : PublicKey := "EPjFWdd5AufqSSqeM2qN1xzybapC8G4wEGGkZwyTDt1v"

/-- A world with an empty ledger, no swap parameters and no calls made. -/
def simWorld (accounts : List PublicKey) (params : Option SwapParams) : World SimLedger :=
  { ledger := { accounts := accounts, pending := [], received := 0 }
    currentSwapParams := params
    trace := [] }

/-- The parameters that the test's `createSwapTransaction` call stores: SOL to USDC. -/
def simParams : SwapParams :=
  { userPublicKey := "owner", inputMint := .key SOL_MINT, outputMint := .key USDC_MINT,
    amount := "1000000000", slippageBps := 50 }

/-- The associated USDC account of the small world's wallet. -/
def simUsdcAccount : PublicKey := "owner/EPjFWdd5AufqSSqeM2qN1xzybapC8G4wEGGkZwyTDt1v"

/-- A world after the test's `createSwapTransaction` call (SOL to USDC) in which
the wallet's USDC account exists. -/
def simReady : World SimLedger := simWorld [simUsdcAccount] (some simParams)

/-- A world after the test's `createSwapTransaction` call (SOL to USDC) in which
the wallet's USDC account does not exist. -/
def simMissing : World SimLedger := simWorld [] (some simParams)

/-- The accounts that `verifyTokenAccounts` returns for SOL to USDC in the small world. -/
def simAccounts : TokenAccounts := { inputAccount := "owner", outputAccount := simUsdcAccount }

/-- A network entry point that answers the first two submissions with a
rate-limit response and accepts the third. -/
def simRateLimitedTwice : SimConfig :=
  { simOk with
    sendAnswer := fun n => if n < 2 then .error ⟨"429 Too Many Requests"⟩ else .ok "sig" }

/-- A quote endpoint whose answer has no `outAmount`. -/
def simQuoteWithoutAmount : SimConfig :=
  { simOk with quote := .ok { outAmount := none, other := [("error", "no route")] } }

/-- A quote endpoint whose answer has `outAmount` zero. -/
def simQuoteZero : SimConfig :=
  { simOk with quote := .ok { outAmount := some 0, other := [] } }

/-- The name of the call an event records. -/
def Event.callName : Event → String
  | .getAccountInfo _ => "getAccountInfo"
  | .getLatestBlockhash _ => "getLatestBlockhash"
  | .walletSignTransaction _ => "wallet.signTransaction"
  | .transactionSign _ => "sign"
  | .versionedSign _ => "sign"
  | .sendRawTransaction _ _ => "sendRawTransaction"
  | .confirmTransaction _ _ => "confirmTransaction"
  | .axiosGet _ => "axios.get"
  | .axiosPost _ _ => "axios.post"

/-- A ledger that reports an execution error for the confirmed transaction. -/
def simFailsOnChain : SimConfig :=
  { simOk with confirmErr := some (.variant "InsufficientFundsForRent") }

/-- A ledger that reports, for the confirmed transaction, the object with the
one field `InstructionError`, value `[0, Custom 1]`. -/
def simCustomError1 : SimConfig :=
  { simOk with confirmErr := some (.object "InstructionError: [0, Custom: 1]") }

/-- A ledger that reports, for the confirmed transaction, the object with the
one field `InstructionError`, value `[2, Custom 6001]`. -/
def simCustomError6001 : SimConfig :=
  { simOk with confirmErr := some (.object "InstructionError: [2, Custom: 6001]") }

/-- The bodies posted to the transaction-build endpoint in a trace, in order. -/
def postedBodies : List Event → List SwapRequestBody
  | [] => []
  | .axiosPost _ body :: rest => body :: postedBodies rest
  | _ :: rest => postedBodies rest

/-- Two calls of `verifyTokenAccounts` in sequence, for the same wallet and mints. -/
def verifyTokenAccountsTwice (E : Env σ) (svc : Service) (wallet : Wallet)
    (inputMint outputMint : MintArg) : Prog σ TokenAccounts := do
  let _first ← verifyTokenAccounts E svc wallet inputMint outputMint
  verifyTokenAccounts E svc wallet inputMint outputMint

/-- The transaction that a creation block hands to the signer. -/
def creationTransaction (wallet : Wallet)
    (address mint tokenProgramId associatedTokenProgramId : PublicKey) (blockhash : Blockhash) :
    Transaction :=
  { instructions :=
      [createAssociatedTokenAccountInstruction wallet.publicKey address wallet.publicKey mint
        tokenProgramId associatedTokenProgramId]
    recentBlockhash := some blockhash
    feePayer := some wallet.publicKey
    signatures := [] }

/-- What the statement
`if (wallet.signTransaction) await wallet.signTransaction(tx) else tx.sign(wallet)`
leaves in the transaction, or the error it throws. -/
def signedBy (E : Env σ) (wallet : Wallet) (tx : Transaction) : Except Error Transaction :=
  match wallet.signTransaction with
  | some f => f tx
  | none => Transaction.sign E tx wallet

/-- The wallet signs the creation of one account: on whatever blockhash, its
signing step returns and changes the signature list only, and the transaction
it signed passes the check of `serialize()`. -/
def SignsCreation (E : Env σ) (wallet : Wallet)
    (address mint tokenProgramId associatedTokenProgramId : PublicKey) : Prop :=
  ∀ blockhash, ∃ sigs,
    signedBy E wallet (creationTransaction wallet address mint tokenProgramId
        associatedTokenProgramId blockhash) =
      .ok { creationTransaction wallet address mint tokenProgramId
              associatedTokenProgramId blockhash with signatures := sigs } ∧
    E.legacySerializeCheck
      { creationTransaction wallet address mint tokenProgramId
          associatedTokenProgramId blockhash with signatures := sigs } = .ok ()

/-- A wallet whose adapter declines every request to sign. -/
def simDecliningWallet : Wallet :=
  { publicKey := "owner", secretKey := []
    signTransaction := some (fun _ => .error ⟨"User rejected the request"⟩) }

/-- The small world with a `serialize()` that rejects a transaction no one signed. -/
def simStrictEnv : Env SimLedger :=
  { simEnv simOk with
    legacySerializeCheck := fun tx =>
      if tx.signatures.any (fun entry => entry.2.isSome) then .ok ()
      else .error ⟨"Signature verification failed"⟩ }

/-- The signing call that the branch of lines 219-233 makes for a decoded
transaction, given the blockhash just fetched. -/
def signEvent (wallet : Wallet) (tx : AnyTransaction) (blockhash : Blockhash) : Event :=
  match tx with
  | .versioned v => .versionedSign v
  | .legacy l =>
    match wallet.signTransaction with
    | some _ =>
      .walletSignTransaction
        { l with recentBlockhash := some blockhash, feePayer := some wallet.publicKey }
    | none =>
      .transactionSign
        { l with recentBlockhash := some blockhash, feePayer := some wallet.publicKey }

/-- Whether an event is the versioned signing call. -/
def Event.isVersionedSign : Event → Bool
  | .versionedSign _ => true
  | _ => false

/-- The request for the latest blockhash that `executeSwap` makes. -/
def swapBlockhashRequest : Event :=
  .getLatestBlockhash (some TRANSACTION_CONFIG.CONFIRMATION_COMMITMENT)

/-- The world in which `executeSwap` signs: after the blockhash request was answered. -/
def afterBlockhash (w : World σ) (ledger : σ) : World σ :=
  { w with ledger := ledger, trace := w.trace ++ [swapBlockhashRequest] }

/-- The confirmation request that `executeSwap` makes for a signature. -/
def swapConfirmStrategy (signature : TxSignature) (latest : BlockhashWithExpiryBlockHeight) :
    ConfirmStrategy :=
  { signature := signature, blockhash := latest.blockhash,
    lastValidBlockHeight := latest.lastValidBlockHeight }

/-! ## Later runs of the swap service -/

/-- A ledger on which every confirmation ends as expired: `confirmTransaction`
rejects because the block height passed `lastValidBlockHeight`. -/
def simExpiredEnv : Env SimLedger :=
  { simEnv simOk with
    confirmTransaction := fun _ _ s =>
      (.error ⟨"TransactionExpiredBlockheightExceededError: block height exceeded"⟩, s) }

/-- The addresses looked up with `getAccountInfo` in a trace, in order. -/
def lookups : List Event → List PublicKey
  | [] => []
  | .getAccountInfo address :: rest => address :: lookups rest
  | _ :: rest => lookups rest

/-- A third mint, for a second swap request. -/
def BONK_MINT : PublicKey := "DezXAZ8z7PnrnRJjz3wXBoRgixCa6xjnB7YaB1pPB263"

/-- Request A alone: `createSwapTransaction` for SOL to USDC, then `executeSwap`
with the payload it returned. -/
def swapAlone (E : Env σ) (svc : Service) (wallet : Wallet) : Prog σ TxSignature := do
  let _built ← createSwapTransaction E svc wallet.publicKey (.key SOL_MINT) (.key USDC_MINT)
    "1000000000" 50 none
  executeSwap E svc wallet "V"

/-- Request A with request B in between: `createSwapTransaction` for A (SOL to
USDC), `createSwapTransaction` for B (USDC to BONK), then `executeSwap` for A. -/
def swapInterleaved (E : Env σ) (svc : Service) (wallet : Wallet) : Prog σ TxSignature := do
  let _built ← createSwapTransaction E svc wallet.publicKey (.key SOL_MINT) (.key USDC_MINT)
    "1000000000" 50 none
  let _other ← createSwapTransaction E svc wallet.publicKey (.key USDC_MINT) (.key BONK_MINT)
    "5000000" 50 none
  executeSwap E svc wallet "V"

/-! ## The market sampler (`src/services/market/market-data.service.js`) -/

/-- The object stored for one sample. -/
structure PriceData where
  price : Option Int
  timestamp : Int
  priceImpactPct : Option String
deriving DecidableEq, Repr

/-- The `Map` held in `this.priceHistory`: its entries, keyed by timestamp, in
insertion order. -/
abbrev PriceHistory := List (Int × PriceData)

/-- The call `map.set(key, value)`: the value of an existing key is replaced in
place, a new key is added at the end. -/
def mapSet (map : PriceHistory) (key : Int) (value : PriceData) : PriceHistory :=
  if map.any (fun entry => entry.1 == key) then
    map.map (fun entry => if entry.1 == key then (key, value) else entry)
  else map ++ [(key, value)]

/-- The call `map.delete(key)`. -/
def mapDelete (map : PriceHistory) (key : Int) : PriceHistory :=
  map.filter (fun entry => entry.1 != key)

/-- The method `cleanOldData()`, run when `Date.now()` gives `now`.  The loop
visits the entries in order and deletes from the map every visited entry whose
key is below `oneHourAgo`. -/
def cleanOldData (now : Int) (priceHistory : PriceHistory) : PriceHistory :=
  let oneHourAgo := now - 3600000
  priceHistory.foldl
    (fun history entry => if entry.1 < oneHourAgo then mapDelete history entry.1 else history)
    priceHistory

/-- The fields of a `MarketDataService` instance that its methods change, and
the sampling period. -/
structure MarketDataService where
  priceHistory : PriceHistory
  updateInterval : Nat
  monitoringActive : Bool
  intervalId : Option Nat
deriving DecidableEq, Repr

/-- The constructor: no samples, not monitoring, no timer. -/
def MarketDataService.create (updateInterval : Nat) : MarketDataService :=
  { priceHistory := [], updateInterval := updateInterval, monitoringActive := false,
    intervalId := none }

/-- The method `updatePrices()`, where `Date.now()` gives `now` after the quote arrived. -/
def MarketDataService.updatePrices (E : Env σ) (svc : Service) (now : Int)
    (market : MarketDataService) (w : World σ) :
    Except Error PriceData × MarketDataService × World σ :=
  match getQuote E svc (.str "So11111111111111111111111111111111111111112")
      (.str "EPjFWdd5AufqSSqeM2qN1xzybapC8G4wEGGkZwyTDt1v") "1000000000" 100 w with
  | (.ok quote, w1) =>
    let priceData : PriceData :=
      { price := quote.outAmount, timestamp := now,
        priceImpactPct := quote.other.lookup "priceImpactPct" }
    (.ok priceData, { market with priceHistory := mapSet market.priceHistory now priceData }, w1)
  | (.error error, w1) => (.error error, market, w1)

/-- The method `start()`; `timer` is the identifier that `setInterval` returns. -/
def MarketDataService.start (E : Env σ) (svc : Service) (now : Int) (timer : Nat)
    (market : MarketDataService) (w : World σ) :
    Except Error Unit × MarketDataService × World σ :=
  if market.monitoringActive then (.ok (), market, w)
  else
    match MarketDataService.updatePrices E svc now { market with monitoringActive := true } w with
    | (.ok _, market1, w1) => (.ok (), { market1 with intervalId := some timer }, w1)
    | (.error error, market1, w1) => (.error error, market1, w1)

/-- The method `stop()`. -/
def MarketDataService.stop (market : MarketDataService) : MarketDataService :=
  if !market.monitoringActive then market
  else
    let market := if market.intervalId.isSome then { market with intervalId := none } else market
    { market with monitoringActive := false }

/-- The method `isActive()`. -/
def MarketDataService.isActive (market : MarketDataService) : Bool :=
  market.monitoringActive

/-- A quote endpoint that does not answer. -/
def simQuoteDown : SimConfig :=
  { simOk with quote := .error ⟨"Request failed with status code 503"⟩ }

/-! ## The configuration check (`src/config/validation.js`) -/

/-- The error class `ConfigurationError`. -/
structure ConfigurationError where
  message : String
deriving DecidableEq, Repr

/-- A JavaScript value, as far as the configuration check distinguishes values. -/
inductive JsValue where
  | undefined
  | null
  | str (s : String)
  | num (n : Int)
  | obj (fields : List (String × JsValue))

/-- The access `obj?.[part]`: `undefined` on `undefined` and `null`, the own
property of an object when it has one, and otherwise what `inherited` gives
(the properties that a value has from its prototype). -/
def JsValue.get (inherited : JsValue → String → JsValue) (obj : JsValue) (part : String) :
    JsValue :=
  match obj with
  | .undefined => .undefined
  | .null => .undefined
  | .obj fields =>
    match fields.lookup part with
    | some value => value
    | none => inherited obj part
  | other => inherited other part

/-- The pieces of a text between the occurrences of a separator; `current` holds
the characters of the piece being read, last first. -/
def splitChars (separator : Char) (current : List Char) : List Char → List String
  | [] => [String.mk current.reverse]
  | c :: rest =>
    if c = separator then String.mk current.reverse :: splitChars separator [] rest
    else splitChars separator (c :: current) rest

/-- The call `varName.split('.')`. -/
def splitOnDot (varName : String) : List String := splitChars '.' [] varName.data

/-- The call `varName.includes('.')`. -/
def includesDot (varName : String) : Bool := varName.data.contains '.'

/-- The list `mvpRequiredVars`. -/
def mvpRequiredVars : List String :=
  ["HELIUS_RPC_URL", "HELIUS_API_KEY", "LOG_LEVEL", "REDIS_URL", "REDIS_TOKEN"]

/-- The list `varsToCheck`: the fixed list in test mode or when
`MARKET_ANALYSIS_TEST` is 'true', the argument otherwise. -/
def varsToCheck (processEnv : String → Option String) (requiredVars : List String) :
    List String :=
  let testMode := processEnv "NODE_ENV" == some "test"
  if testMode || processEnv "MARKET_ANALYSIS_TEST" == some "true" then mvpRequiredVars
  else requiredVars

/-- The value that the loop body reads for a name: along the dotted path in
`config`, or from the environment. -/
def configValue (inherited : JsValue → String → JsValue) (processEnv : String → Option String)
    (config : JsValue) (varName : String) : JsValue :=
  if includesDot varName then
    (splitOnDot varName).foldl (JsValue.get inherited) config
  else
    match processEnv varName with
    | some s => .str s
    | none => .undefined

/-- The test `value === undefined || value === null || value === ''`. -/
def isMissingValue : JsValue → Bool
  | .undefined => true
  | .null => true
  | .str s => s == ""
  | _ => false

/-- The function `validateConfig(config, requiredVars)`. -/
def validateConfig (inherited : JsValue → String → JsValue)
    (processEnv : String → Option String) (config : JsValue) (requiredVars : List String) :
    Except ConfigurationError Unit :=
  let missingVars := (varsToCheck processEnv requiredVars).foldl
    (fun missingVars varName =>
      if isMissingValue (configValue inherited processEnv config varName) then
        missingVars ++ [varName]
      else missingVars)
    []
  if missingVars.length > 0 then
    .error ⟨"Missing required environment variables: " ++ " ".intercalate missingVars⟩
  else .ok ()

/-- An environment in test mode with no other variable set. -/
def testModeEnv (name : String) : Option String :=
  if name = "NODE_ENV" then some "test" else none

/-- An environment outside test mode in which the five fixed names are set. -/
def productionEnv (name : String) : Option String :=
  if name ∈ mvpRequiredVars then some "set" else none

/-- A value has nothing from its prototype. -/
def noInherited : JsValue → String → JsValue := fun _ _ => .undefined

/-- The outcome of `start()` on a new sampler while the quote endpoint does not answer. -/
def simFailedStart : Except Error Unit × MarketDataService × World SimLedger :=
  MarketDataService.start (simEnv simQuoteDown) simService 1000 7
    (MarketDataService.create 30000) (simWorld [] none)

/-- The outcome of a second `start()`, after the failed one, with the quote
endpoint answering again. -/
def simSecondStart : Except Error Unit × MarketDataService × World SimLedger :=
  MarketDataService.start (simEnv simOk) simService 2000 8 simFailedStart.2.1 simFailedStart.2.2

/-! # Theorems -/

/-! ## Running programs: basic facts -/

namespace Prog

variable {σ α β : Type}

theorem bind_run (p : Prog σ α) (f : α → Prog σ β) (w : World σ) :
    (p >>= f) w =
      match p w with
      | (.ok a, w1) => f a w1
      | (.error e, w1) => (.error e, w1) := rfl

theorem pure_run (a : α) (w : World σ) : (Pure.pure a : Prog σ α) w = (.ok a, w) := rfl

theorem tryCatch_rethrow (p : Prog σ α) (w : World σ) :
    Prog.tryCatch p (fun error => Prog.throw error) w = p w := by
  unfold Prog.tryCatch Prog.throw
  rcases h : p w with ⟨r, w1⟩
  cases r <;> rfl

theorem call_run (ev : Event) (f : σ → Except Error α × σ) (w : World σ)
    (r : Except Error α) (l : σ) (h : f w.ledger = (r, l)) :
    Prog.call ev f w = (r, { w with ledger := l, trace := w.trace ++ [ev] }) := by
  simp [Prog.call, h]

end Prog

theorem creationLog_append (t u : List Event) :
    creationLog (t ++ u) = creationLog t ++ creationLog u := by
  induction t with
  | nil => rfl
  | cons ev rest ih => cases ev <;> simp [creationLog, ih]

theorem confirmations_append (t u : List Event) :
    confirmations (t ++ u) = confirmations t ++ confirmations u := by
  induction t with
  | nil => rfl
  | cons ev rest ih => cases ev <;> simp [confirmations, ih]

theorem createdAccount_creationTransaction (wallet : Wallet)
    (address mint tokenProgramId associatedTokenProgramId : PublicKey) (blockhash : Blockhash)
    (sigs : List (PublicKey × Option TxSignature)) :
    (RawTransaction.legacy { creationTransaction wallet address mint tokenProgramId
        associatedTokenProgramId blockhash with signatures := sigs }).createdAccount
      = some (address, mint) := by
  simp [RawTransaction.createdAccount, creationTransaction, createAssociatedTokenAccountInstruction]

/-- The signing statement makes one signing call and yields what `signedBy` says. -/
theorem signWithWallet_eq (E : Env σ) (wallet : Wallet) (tx : Transaction) (w : World σ) :
    ∃ ev, ev.isSigning = true ∧
      signWithWallet E wallet tx w =
        (signedBy E wallet tx, { w with trace := w.trace ++ [ev] }) := by
  unfold signWithWallet signedBy
  cases hw : wallet.signTransaction with
  | none => exact ⟨.transactionSign tx, rfl, rfl⟩
  | some f => exact ⟨.walletSignTransaction tx, rfl, rfl⟩

/-- With an answering ledger and a wallet that signs the creation, one creation
block runs to its end and adds exactly the creation of the given account to the
submissions. -/
theorem createTokenAccount_run (E : Env σ) (wallet : Wallet)
    (address mint tokenProgramId associatedTokenProgramId : PublicKey) (w : World σ)
    (hnet : LedgerAnswers E)
    (hsig : SignsCreation E wallet address mint tokenProgramId associatedTokenProgramId) :
    ∃ w1, createTokenAccount E wallet address mint tokenProgramId associatedTokenProgramId w
        = (.ok (), w1) ∧
      creationLog w1.trace = creationLog w.trace ++ [some (address, mint)] ∧
      confirmations w1.trace = confirmations w.trace := by
  obtain ⟨bh, hbh⟩ := hnet.getLatestBlockhash none w.ledger
  rcases hb : E.getLatestBlockhash none w.ledger with ⟨rb, lb⟩
  rw [hb] at hbh
  simp only at hbh
  subst hbh
  obtain ⟨sigs, hsigned, hcheck⟩ := hsig bh.blockhash
  obtain ⟨ev, hev, hsign⟩ := signWithWallet_eq E wallet
    (creationTransaction wallet address mint tokenProgramId associatedTokenProgramId bh.blockhash)
    { w with ledger := lb, trace := w.trace ++ [.getLatestBlockhash none] }
  rw [hsigned] at hsign
  have hc := createdAccount_creationTransaction wallet address mint tokenProgramId
    associatedTokenProgramId bh.blockhash sigs
  obtain ⟨sg, hsg⟩ := hnet.sendRawTransaction
    (.legacy { creationTransaction wallet address mint tokenProgramId
      associatedTokenProgramId bh.blockhash with signatures := sigs }) creationSendOptions lb
    (by rw [hc]; rfl)
  rcases hs : E.sendRawTransaction
    (.legacy { creationTransaction wallet address mint tokenProgramId
      associatedTokenProgramId bh.blockhash with signatures := sigs }) creationSendOptions lb
    with ⟨rs, ls⟩
  rw [hs] at hsg
  simp only at hsg
  subst hsg
  have hrun : createTokenAccount E wallet address mint tokenProgramId associatedTokenProgramId w
      = (.ok (), { ledger := ls, currentSwapParams := w.currentSwapParams,
                   trace := w.trace ++ [.getLatestBlockhash none] ++ [ev] ++
                     [.sendRawTransaction (.legacy { creationTransaction wallet address mint
                        tokenProgramId associatedTokenProgramId bh.blockhash with
                        signatures := sigs }) creationSendOptions] }) := by
    unfold creationTransaction at hsign hs hcheck
    simp [createTokenAccount, Prog.bind_run, Prog.pure_run, Prog.call, hb, hsign,
      Prog.ofExcept, Transaction.serialize, hcheck, hs, creationTransaction]
  refine ⟨_, hrun, ?_, ?_⟩
  · cases ev <;> simp [Event.isSigning] at hev <;>
      simp [creationLog_append, creationLog, hc]
  · cases ev <;> simp [Event.isSigning] at hev <;>
      simp [confirmations_append, confirmations]

/-- The run of `verifyTokenAccounts` on an answering ledger, with a wallet that
signs the creation of each side that needs one: it returns the two accounts, and
submits one creation for each side that is missing and not native, the input
side first. -/
theorem verifyTokenAccounts_run
    (E : Env σ) (svc : Service) (wallet : Wallet) (inputMint outputMint : MintArg) (w : World σ)
    (ids : ProgramIds) (im om tp atp ia oa : PublicKey) (infoIn infoOut : Option AccountInfo)
    (hids : PROGRAM_IDS (toUpperCase svc.network) = some ids)
    (him : toPublicKey E inputMint = .ok im) (hom : toPublicKey E outputMint = .ok om)
    (htp : E.newPublicKey ids.TOKEN_PROGRAM = .ok tp)
    (hatp : E.newPublicKey ids.ASSOCIATED_TOKEN_PROGRAM = .ok atp)
    (hia : E.getAssociatedTokenAddress im wallet.publicKey false tp atp = .ok ia)
    (hoa : E.getAssociatedTokenAddress om wallet.publicKey false tp atp = .ok oa)
    (hnet : LedgerAnswers E)
    (hinfoIn : (E.getAccountInfo ia w.ledger).1 = .ok infoIn)
    (hinfoOut : (E.getAccountInfo oa (E.getAccountInfo ia w.ledger).2).1 = .ok infoOut)
    (hsignIn : infoIn = none ∧ im ≠ SOL_MINT → SignsCreation E wallet ia im tp atp)
    (hsignOut : infoOut = none ∧ om ≠ SOL_MINT → SignsCreation E wallet oa om tp atp) :
    ∃ w1, verifyTokenAccounts E svc wallet inputMint outputMint w =
        (.ok { inputAccount := if im = SOL_MINT then wallet.publicKey else ia,
               outputAccount := if om = SOL_MINT then wallet.publicKey else oa }, w1) ∧
      creationLog w1.trace = creationLog w.trace ++
        (if infoIn = none ∧ im ≠ SOL_MINT then [some (ia, im)] else []) ++
        (if infoOut = none ∧ om ≠ SOL_MINT then [some (oa, om)] else []) := by
  rw [verifyTokenAccounts, Prog.tryCatch_rethrow]
  rcases h1 : E.getAccountInfo ia w.ledger with ⟨r1, l1⟩
  rw [h1] at hinfoIn hinfoOut
  simp only at hinfoIn hinfoOut
  subst hinfoIn
  rcases h2 : E.getAccountInfo oa l1 with ⟨r2, l2⟩
  rw [h2] at hinfoOut
  simp only at hinfoOut
  subst hinfoOut
  simp only [Prog.bind_run, Prog.ofExcept, him, hom, programIdsOf, hids, htp, hatp, Prog.all2,
    hia, hoa, Prog.call, h1, h2]
  have hW : creationLog (@World.trace σ
      { ledger := l2, currentSwapParams := w.currentSwapParams,
        trace := w.trace ++ [Event.getAccountInfo ia] ++ [Event.getAccountInfo oa] })
      = creationLog w.trace := by
    simp [creationLog_append, creationLog]
  generalize (World.mk l2 w.currentSwapParams
    (w.trace ++ [Event.getAccountInfo ia] ++ [Event.getAccountInfo oa])) = W at hW ⊢
  by_cases c1 : infoIn = none ∧ im ≠ SOL_MINT
  · obtain ⟨wa, hwa, hla, -⟩ :=
      createTokenAccount_run E wallet ia im tp atp W hnet (hsignIn c1)
    by_cases c2 : infoOut = none ∧ om ≠ SOL_MINT
    · obtain ⟨wb, hwb, hlb, -⟩ :=
        createTokenAccount_run E wallet oa om tp atp wa hnet (hsignOut c2)
      refine ⟨wb, ?_, ?_⟩
      · simp [c1, c2, Prog.bind_run, Prog.pure_run, hwa, hwb]
      · simp [c1, c2, hlb, hla, hW]
    · refine ⟨wa, ?_, ?_⟩
      · have c2b : (infoOut.isNone && om != SOL_MINT) = false := by
          simpa [Option.isNone_iff_eq_none] using c2
        simp [c1, c2b, Prog.bind_run, Prog.pure_run, hwa]
      · simp [c1, c2, hla, hW]
  · have c1b : (infoIn.isNone && im != SOL_MINT) = false := by
      simpa [Option.isNone_iff_eq_none] using c1
    by_cases c2 : infoOut = none ∧ om ≠ SOL_MINT
    · obtain ⟨wb, hwb, hlb, -⟩ :=
        createTokenAccount_run E wallet oa om tp atp W hnet (hsignOut c2)
      refine ⟨wb, ?_, ?_⟩
      · simp [c1b, c2, Prog.bind_run, Prog.pure_run, hwb]
      · simp [c1, c2, hlb, hW]
    · refine ⟨W, ?_, ?_⟩
      · have c2b : (infoOut.isNone && om != SOL_MINT) = false := by
          simpa [Option.isNone_iff_eq_none] using c2
        simp [c1b, c2b, Prog.bind_run, Prog.pure_run]
      · simp [c1, c2, hW]

theorem simEnv_answers (cfg : SimConfig) (hsend : ∀ n, ∃ sig, cfg.sendAnswer n = .ok sig) :
    LedgerAnswers (simEnv cfg) where
  getAccountInfo := fun a s => ⟨_, rfl⟩
  getLatestBlockhash := fun c s => ⟨_, rfl⟩
  sendRawTransaction := fun raw o s _ => by
    obtain ⟨sig, h⟩ := hsend s.received
    exact ⟨sig, by simp [simEnv, h]⟩

theorem simStrictEnv_answers : LedgerAnswers simStrictEnv where
  getAccountInfo := fun _ _ => ⟨_, rfl⟩
  getLatestBlockhash := fun _ _ => ⟨_, rfl⟩
  sendRawTransaction := fun _ _ _ _ => ⟨"sig", rfl⟩

/-- The strict `serialize()` rejects a creation transaction that no one signed. -/
theorem simStrictEnv_rejects_unsigned :
    Transaction.serialize simStrictEnv
      (creationTransaction simWallet simUsdcAccount USDC_MINT "token" "associated" "freshHash")
      = .error ⟨"Signature verification failed"⟩ := rfl

/-- C1 fails: with every ledger call answered, a missing USDC account and a
wallet whose adapter declines to sign, `verifyTokenAccounts` fails and submits
no creation, although the output mint is not `SOL_MINT` and its account has no
account info.  On a service whose network has no program identifiers
('devnet') it fails before any lookup. -/
theorem verifyTokenAccounts_declined_creates_nothing :
    LedgerAnswers (simEnv simOk) ∧
    ((simEnv simOk).getAccountInfo simUsdcAccount simMissing.ledger).1 = .ok none ∧
    USDC_MINT ≠ SOL_MINT ∧
    (verifyTokenAccounts (simEnv simOk) simService simDecliningWallet (.key SOL_MINT)
      (.key USDC_MINT) simMissing).1 = .error ⟨"User rejected the request"⟩ ∧
    creationLog (verifyTokenAccounts (simEnv simOk) simService simDecliningWallet
      (.key SOL_MINT) (.key USDC_MINT) simMissing).2.trace = [] ∧
    verifyTokenAccounts (simEnv simOk) { simService with network := "devnet" } simWallet
      (.key SOL_MINT) (.key USDC_MINT) simMissing = (.error undefinedPropertyError, simMissing) := by
  refine ⟨simEnv_answers simOk (fun _ => ⟨"sig", rfl⟩), rfl, by decide, rfl, by decide, rfl⟩

/-- C1 as amended: on a service whose network has program identifiers, for
mints whose keys and associated accounts can be derived, on a ledger that
answers every call, and with a wallet that signs the creation of each side that
needs one (its signing step returns, changes the signatures only, and the signed
transaction passes `serialize()`), `verifyTokenAccounts` returns the two
accounts and submits exactly one account-creation transaction for each side
whose mint is not `SOL_MINT` and whose derived account has no account info, and
nothing else.  In particular it submits nothing when both accounts have account
info, whatever the wallet, and for a native input with a missing, non-native
output it submits one creation, for the output address. -/
theorem verifyTokenAccounts_creates_exactly_missing
    (E : Env σ) (svc : Service) (wallet : Wallet) (inputMint outputMint : MintArg) (w : World σ)
    (ids : ProgramIds) (im om tp atp ia oa : PublicKey) (infoIn infoOut : Option AccountInfo)
    (hids : PROGRAM_IDS (toUpperCase svc.network) = some ids)
    (him : toPublicKey E inputMint = .ok im) (hom : toPublicKey E outputMint = .ok om)
    (htp : E.newPublicKey ids.TOKEN_PROGRAM = .ok tp)
    (hatp : E.newPublicKey ids.ASSOCIATED_TOKEN_PROGRAM = .ok atp)
    (hia : E.getAssociatedTokenAddress im wallet.publicKey false tp atp = .ok ia)
    (hoa : E.getAssociatedTokenAddress om wallet.publicKey false tp atp = .ok oa)
    (hnet : LedgerAnswers E)
    (hinfoIn : (E.getAccountInfo ia w.ledger).1 = .ok infoIn)
    (hinfoOut : (E.getAccountInfo oa (E.getAccountInfo ia w.ledger).2).1 = .ok infoOut)
    (hsignIn : infoIn = none ∧ im ≠ SOL_MINT → SignsCreation E wallet ia im tp atp)
    (hsignOut : infoOut = none ∧ om ≠ SOL_MINT → SignsCreation E wallet oa om tp atp) :
    ∃ w1, verifyTokenAccounts E svc wallet inputMint outputMint w =
        (.ok { inputAccount := if im = SOL_MINT then wallet.publicKey else ia,
               outputAccount := if om = SOL_MINT then wallet.publicKey else oa }, w1) ∧
      creationLog w1.trace = creationLog w.trace ++
        (if infoIn = none ∧ im ≠ SOL_MINT then [some (ia, im)] else []) ++
        (if infoOut = none ∧ om ≠ SOL_MINT then [some (oa, om)] else []) ∧
      (infoIn ≠ none → infoOut ≠ none → creationLog w1.trace = creationLog w.trace) ∧
      (im = SOL_MINT → infoOut = none → om ≠ SOL_MINT →
        creationLog w1.trace = creationLog w.trace ++ [some (oa, om)]) := by
  obtain ⟨w1, hrun, hlog⟩ := verifyTokenAccounts_run E svc wallet inputMint outputMint w ids
    im om tp atp ia oa infoIn infoOut hids him hom htp hatp hia hoa hnet hinfoIn hinfoOut
    hsignIn hsignOut
  refine ⟨w1, hrun, hlog, ?_, ?_⟩
  · intro h1 h2
    simp [hlog, h1, h2]
  · intro h1 h2 h3
    simp [hlog, h1, h2, h3]

/-- C1 as amended, scenario B with a `serialize()` that rejects unsigned
transactions: SOL (native) to USDC with no USDC account, a keypair wallet: one
creation, for the USDC account. -/
theorem verifyTokenAccounts_creates_exactly_missing_witness :
    ∃ w1, verifyTokenAccounts simStrictEnv simService simWallet (.key SOL_MINT)
        (.key USDC_MINT) simMissing = (.ok simAccounts, w1) ∧
      creationLog w1.trace = [some (simUsdcAccount, USDC_MINT)] := by
  obtain ⟨w1, hrun, -, -, hone⟩ := verifyTokenAccounts_creates_exactly_missing simStrictEnv
    simService simWallet (.key SOL_MINT) (.key USDC_MINT) simMissing
    { JUPITER_V6 := "JUP6LkbZbjS1jKKwapdHNy74zcZ3tLUZoi5QNyVTaV4"
      TOKEN_LEDGER := "JUP2jxvXaqu7NQY1GmNF4m1vodw12LVXYxbFL2uJvfo"
      VERSIONED_TRANSACTION := true
      TOKEN_PROGRAM := "TokenkegQfeZyiNwAJbNbGKPFXCWuBvf9Ss623VQ5DA"
      ASSOCIATED_TOKEN_PROGRAM := "ATokenGPvbdGVxr1b2hvZbsiqW5xWH25efTNsLJA8knL" }
    SOL_MINT USDC_MINT "TokenkegQfeZyiNwAJbNbGKPFXCWuBvf9Ss623VQ5DA"
    "ATokenGPvbdGVxr1b2hvZbsiqW5xWH25efTNsLJA8knL"
    "owner/So11111111111111111111111111111111111111112" simUsdcAccount none none
    (by decide) rfl rfl rfl rfl rfl rfl simStrictEnv_answers rfl rfl
    (fun h => absurd rfl h.2)
    (fun _ blockhash => ⟨[("owner", some "signed")], rfl, rfl⟩)
  exact ⟨w1, hrun, hone rfl rfl (by decide)⟩

/-! ## The run of `executeSwap`, step by step -/

theorem executeSwap_without_params (E : Env σ) (svc : Service) (wallet : Wallet)
    (payload : String) (w : World σ) (hp : w.currentSwapParams = none) :
    executeSwap E svc wallet payload w = (.error ⟨"No current swap parameters found"⟩, w) := by
  rw [executeSwap, Prog.tryCatch_rethrow]
  simp [Prog.bind_run, getCurrentSwapParams, hp, Prog.throw]

theorem executeSwap_with_params (E : Env σ) (svc : Service) (wallet : Wallet)
    (payload : String) (w : World σ) (p : SwapParams) (hp : w.currentSwapParams = some p) :
    executeSwap E svc wallet payload w =
      match verifyTokenAccounts E svc wallet p.inputMint p.outputMint w with
      | (.ok _, w1) => sendSwap E wallet payload w1
      | (.error e, w1) => (.error e, w1) := by
  rw [executeSwap, Prog.tryCatch_rethrow]
  simp only [Prog.bind_run, getCurrentSwapParams, hp]
  rcases verifyTokenAccounts E svc wallet p.inputMint p.outputMint w with ⟨_ | _, _⟩ <;> rfl

theorem sendSwap_decode_error (E : Env σ) (wallet : Wallet) (payload : String) (w : World σ)
    (e : Error) (hd : deserializeTransaction E (E.base64Decode payload) = .error e) :
    sendSwap E wallet payload w = (.error e, w) := by
  simp [sendSwap, Prog.bind_run, Prog.ofExcept, hd]

/-- The signing step makes one call, the one of the decoded format, and
leaves the ledger as it is. -/
theorem signAndSerialize_world (E : Env σ) (wallet : Wallet) (tx : AnyTransaction)
    (blockhash : Blockhash) (w : World σ) :
    (signAndSerialize E wallet tx blockhash w).2 =
      { w with trace := w.trace ++ [signEvent wallet tx blockhash] } := by
  cases tx with
  | versioned v =>
    simp only [signAndSerialize, signEvent, Prog.bind_run, Prog.emit, Prog.ofExcept]
    cases VersionedTransaction.sign E v wallet <;> rfl
  | legacy l =>
    simp only [signAndSerialize, signEvent, signWithWallet]
    cases hw : wallet.signTransaction with
    | none =>
      simp only [Prog.bind_run, Prog.emit, Prog.ofExcept]
      cases Transaction.sign E
        { l with recentBlockhash := some blockhash, feePayer := some wallet.publicKey } wallet with
      | error e => rfl
      | ok t => cases h : Transaction.serialize E t <;> simp [h]
    | some f =>
      simp only [Prog.bind_run, Prog.emit, Prog.ofExcept]
      cases f { l with recentBlockhash := some blockhash, feePayer := some wallet.publicKey } with
      | error e => rfl
      | ok t => cases h : Transaction.serialize E t <;> simp [h]

/-- The run of lines 193-262 once the payload is decoded and the blockhash request answered. -/
theorem sendSwap_decoded (E : Env σ) (wallet : Wallet) (payload : String) (w : World σ)
    (tx : AnyTransaction) (latest : BlockhashWithExpiryBlockHeight) (l2 : σ)
    (hd : deserializeTransaction E (E.base64Decode payload) = .ok tx)
    (hl : E.getLatestBlockhash (some TRANSACTION_CONFIG.CONFIRMATION_COMMITMENT) w.ledger
      = (.ok latest, l2)) :
    sendSwap E wallet payload w =
      match signAndSerialize E wallet tx latest.blockhash (afterBlockhash w l2) with
      | (.error e, w3) => (.error e, w3)
      | (.ok raw, w3) =>
        match E.sendRawTransaction raw swapSendOptions w3.ledger with
        | (.error e, l4) =>
          (.error e, { w3 with
            ledger := l4, trace := w3.trace ++ [.sendRawTransaction raw swapSendOptions] })
        | (.ok sig, l4) =>
          match E.confirmTransaction (swapConfirmStrategy sig latest)
            TRANSACTION_CONFIG.CONFIRMATION_COMMITMENT l4 with
          | (.error e, l5) =>
            (.error e, { w3 with
              ledger := l5
              trace := w3.trace ++ [.sendRawTransaction raw swapSendOptions] ++
                [.confirmTransaction (swapConfirmStrategy sig latest)
                  TRANSACTION_CONFIG.CONFIRMATION_COMMITMENT] })
          | (.ok confirmation, l5) =>
            (match confirmation.value.err with
              | some err =>
                if err.truthy then .error ⟨"Transaction failed: " ++ err.interpolated⟩
                else .ok sig
              | none => .ok sig,
             { w3 with
              ledger := l5
              trace := w3.trace ++ [.sendRawTransaction raw swapSendOptions] ++
                [.confirmTransaction (swapConfirmStrategy sig latest)
                  TRANSACTION_CONFIG.CONFIRMATION_COMMITMENT] }) := by
  have hcall : Prog.call swapBlockhashRequest
      (E.getLatestBlockhash (some TRANSACTION_CONFIG.CONFIRMATION_COMMITMENT)) w
      = (.ok latest, afterBlockhash w l2) := Prog.call_run _ _ _ _ _ hl
  simp only [sendSwap, Prog.bind_run, Prog.ofExcept, hd]
  rw [show Event.getLatestBlockhash (some TRANSACTION_CONFIG.CONFIRMATION_COMMITMENT)
    = swapBlockhashRequest from rfl, hcall]
  simp only []
  rcases signAndSerialize E wallet tx latest.blockhash (afterBlockhash w l2) with ⟨_ | raw, w3⟩
  · rfl
  · simp only []
    rcases hsend : E.sendRawTransaction raw swapSendOptions w3.ledger with ⟨_ | sig, l4⟩
    · rw [Prog.call_run _ _ _ _ _ hsend]
    · rw [Prog.call_run _ _ _ _ _ hsend]
      simp only []
      rcases hconf : E.confirmTransaction (swapConfirmStrategy sig latest)
        TRANSACTION_CONFIG.CONFIRMATION_COMMITMENT l4 with ⟨_ | c, l5⟩
      · have := Prog.call_run (.confirmTransaction (swapConfirmStrategy sig latest)
          TRANSACTION_CONFIG.CONFIRMATION_COMMITMENT) _
          { w3 with ledger := l4,
                    trace := w3.trace ++ [.sendRawTransaction raw swapSendOptions] } _ _ hconf
        simp only [swapConfirmStrategy] at this ⊢
        rw [this]
      · have := Prog.call_run (.confirmTransaction (swapConfirmStrategy sig latest)
          TRANSACTION_CONFIG.CONFIRMATION_COMMITMENT) _
          { w3 with ledger := l4,
                    trace := w3.trace ++ [.sendRawTransaction raw swapSendOptions] } _ _ hconf
        simp only [swapConfirmStrategy] at this ⊢
        rw [this]
        simp only []
        cases c.value.err with
        | none => rfl
        | some err =>
          dsimp only
          cases err.truthy <;> rfl

theorem submitted_append (t u : List Event) :
    submitted (t ++ u) = submitted t ++ submitted u := by
  induction t with
  | nil => rfl
  | cons ev rest ih => cases ev <;> simp [submitted, ih]

/-- What a successful versioned signing step yields: the decoded transaction
with a new signature list. -/
theorem signAndSerialize_versioned_ok (E : Env σ) (wallet : Wallet) (v : VersionedTransaction)
    (blockhash : Blockhash) (w w3 : World σ) (raw : RawTransaction)
    (h : signAndSerialize E wallet (.versioned v) blockhash w = (.ok raw, w3)) :
    ∃ sigs, raw = .versioned { v with signatures := sigs } := by
  simp only [signAndSerialize, Prog.bind_run, Prog.emit, Prog.ofExcept,
    VersionedTransaction.sign] at h
  cases hs : E.versionedSignatures wallet.secretKey wallet.publicKey v with
  | error e => simp [hs] at h
  | ok sigs =>
    refine ⟨sigs, ?_⟩
    simp [hs, Prog.pure_run, VersionedTransaction.serialize] at h
    exact h.1.symm

/-- What a successful legacy signing step yields when the signer changes the
signature list only: the decoded transaction on the fetched blockhash, paid by the wallet. -/
theorem signAndSerialize_legacy_ok (E : Env σ) (wallet : Wallet) (l : Transaction)
    (blockhash : Blockhash) (w w3 : World σ) (raw : RawTransaction)
    (hadapter : ∀ f, wallet.signTransaction = some f →
      ∀ t, ∃ sigs, f t = .ok { t with signatures := sigs })
    (h : signAndSerialize E wallet (.legacy l) blockhash w = (.ok raw, w3)) :
    ∃ sigs, raw = .legacy { l with
      recentBlockhash := some blockhash, feePayer := some wallet.publicKey, signatures := sigs } := by
  simp only [signAndSerialize, signWithWallet] at h
  cases hw : wallet.signTransaction with
  | none =>
    simp only [hw, Prog.bind_run, Prog.emit, Prog.ofExcept, Transaction.sign] at h
    refine ⟨E.legacySignatures wallet.secretKey
      { l with recentBlockhash := some blockhash, feePayer := some wallet.publicKey }, ?_⟩
    simp only [Transaction.serialize] at h
    cases hc : E.legacySerializeCheck { l with
        recentBlockhash := some blockhash, feePayer := some wallet.publicKey,
        signatures := E.legacySignatures wallet.secretKey
          { l with recentBlockhash := some blockhash, feePayer := some wallet.publicKey } } with
    | error e => simp [hc] at h
    | ok u =>
      simp [hc] at h
      exact h.1.symm
  | some f =>
    obtain ⟨sigs, hs⟩ := hadapter f hw
      { l with recentBlockhash := some blockhash, feePayer := some wallet.publicKey }
    simp only [hw, Prog.bind_run, Prog.emit, Prog.ofExcept, hs, Transaction.serialize] at h
    refine ⟨sigs, ?_⟩
    cases hc : E.legacySerializeCheck { l with
        recentBlockhash := some blockhash, feePayer := some wallet.publicKey,
        signatures := sigs } with
    | error e => simp [hc] at h
    | ok u =>
      simp [hc] at h
      exact h.1.symm

/-- The calls of lines 193-262 once the payload is decoded and the blockhash
request answered: the request, one signing call, then at most one submission
and at most one confirmation request. -/
theorem sendSwap_trace (E : Env σ) (wallet : Wallet) (payload : String) (w : World σ)
    (tx : AnyTransaction) (latest : BlockhashWithExpiryBlockHeight) (l2 : σ)
    (hd : deserializeTransaction E (E.base64Decode payload) = .ok tx)
    (hl : E.getLatestBlockhash (some TRANSACTION_CONFIG.CONFIRMATION_COMMITMENT) w.ledger
      = (.ok latest, l2)) :
    ∃ rest, (sendSwap E wallet payload w).2.trace =
        w.trace ++ [swapBlockhashRequest, signEvent wallet tx latest.blockhash] ++ rest ∧
      (rest = [] ∨
        ∃ raw w3, signAndSerialize E wallet tx latest.blockhash (afterBlockhash w l2)
            = (.ok raw, w3) ∧
          (rest = [.sendRawTransaction raw swapSendOptions] ∨
            ∃ sig, rest = [.sendRawTransaction raw swapSendOptions,
              .confirmTransaction (swapConfirmStrategy sig latest)
                TRANSACTION_CONFIG.CONFIRMATION_COMMITMENT])) := by
  rw [sendSwap_decoded E wallet payload w tx latest l2 hd hl]
  have hw := signAndSerialize_world E wallet tx latest.blockhash (afterBlockhash w l2)
  rcases hs : signAndSerialize E wallet tx latest.blockhash (afterBlockhash w l2)
    with ⟨_ | raw, w3⟩
  · rw [hs] at hw
    simp only at hw
    subst hw
    exact ⟨[], by simp [afterBlockhash], Or.inl rfl⟩
  · rw [hs] at hw
    simp only at hw
    subst hw
    simp only []
    rcases E.sendRawTransaction raw swapSendOptions _ with ⟨_ | sig, l4⟩
    · exact ⟨[.sendRawTransaction raw swapSendOptions], by simp [afterBlockhash],
        Or.inr ⟨raw, _, rfl, Or.inl rfl⟩⟩
    · simp only []
      rcases E.confirmTransaction (swapConfirmStrategy sig latest)
        TRANSACTION_CONFIG.CONFIRMATION_COMMITMENT l4 with ⟨_ | c, l5⟩
      · exact ⟨_, by simp [afterBlockhash], Or.inr ⟨raw, _, rfl, Or.inr ⟨sig, rfl⟩⟩⟩
      · exact ⟨_, by simp [afterBlockhash], Or.inr ⟨raw, _, rfl, Or.inr ⟨sig, rfl⟩⟩⟩

/-! ## Decoding and signing (C4, C5) -/

theorem deserializeTransaction_versioned_iff (E : Env σ) (bytes : Bytes)
    (v : VersionedTransaction) :
    deserializeTransaction E bytes = .ok (.versioned v) ↔ E.versionedDeserialize bytes = .ok v := by
  unfold deserializeTransaction
  cases hv : E.versionedDeserialize bytes with
  | ok v1 => simp
  | error e => cases hl : E.transactionFrom bytes <;> simp

theorem deserializeTransaction_legacy_iff (E : Env σ) (bytes : Bytes) (l : Transaction) :
    deserializeTransaction E bytes = .ok (.legacy l) ↔
      (∃ e, E.versionedDeserialize bytes = .error e) ∧ E.transactionFrom bytes = .ok l := by
  unfold deserializeTransaction
  cases hv : E.versionedDeserialize bytes with
  | ok v1 => simp
  | error e => cases hl : E.transactionFrom bytes <;> simp

theorem deserializeTransaction_error (E : Env σ) (bytes : Bytes) (e1 e2 : Error)
    (h1 : E.versionedDeserialize bytes = .error e1) (h2 : E.transactionFrom bytes = .error e2) :
    deserializeTransaction E bytes = .error e2 := by
  simp [deserializeTransaction, h1, h2]

theorem signEvent_isSigning (wallet : Wallet) (tx : AnyTransaction) (blockhash : Blockhash) :
    (signEvent wallet tx blockhash).isSigning = true := by
  cases tx with
  | versioned v => rfl
  | legacy l => unfold signEvent; cases wallet.signTransaction <;> rfl

theorem signEvent_isVersionedSign (wallet : Wallet) (tx : AnyTransaction) (blockhash : Blockhash) :
    (signEvent wallet tx blockhash).isVersionedSign = tx.isVersioned := by
  cases tx with
  | versioned v => rfl
  | legacy l => unfold signEvent; cases wallet.signTransaction <;> rfl

/-- The calls of `executeSwap` after a successful provisioning step, a decoded
payload and an answered blockhash request. -/
theorem executeSwap_trace (E : Env σ) (svc : Service) (wallet : Wallet) (payload : String)
    (w w1 : World σ) (p : SwapParams) (accounts : TokenAccounts) (tx : AnyTransaction)
    (latest : BlockhashWithExpiryBlockHeight) (l2 : σ)
    (hp : w.currentSwapParams = some p)
    (hv : verifyTokenAccounts E svc wallet p.inputMint p.outputMint w = (.ok accounts, w1))
    (hd : deserializeTransaction E (E.base64Decode payload) = .ok tx)
    (hl : E.getLatestBlockhash (some TRANSACTION_CONFIG.CONFIRMATION_COMMITMENT) w1.ledger
      = (.ok latest, l2)) :
    ∃ rest, (executeSwap E svc wallet payload w).2.trace =
        w1.trace ++ [swapBlockhashRequest, signEvent wallet tx latest.blockhash] ++ rest ∧
      (rest = [] ∨
        ∃ raw w3, signAndSerialize E wallet tx latest.blockhash (afterBlockhash w1 l2)
            = (.ok raw, w3) ∧
          (rest = [.sendRawTransaction raw swapSendOptions] ∨
            ∃ sig, rest = [.sendRawTransaction raw swapSendOptions,
              .confirmTransaction (swapConfirmStrategy sig latest)
                TRANSACTION_CONFIG.CONFIRMATION_COMMITMENT])) := by
  rw [executeSwap_with_params E svc wallet payload w p hp, hv]
  exact sendSwap_trace E wallet payload w1 tx latest l2 hd hl

/-- C4: in `executeSwap` the decoded format is Versioned exactly when the
Versioned decoder accepts the bytes of the payload (whatever the Legacy decoder
would do), and Legacy exactly when the Versioned decoder rejects them and the
Legacy decoder accepts them.  When both reject, `executeSwap` fails and makes no
call after the provisioning step: the swap is neither signed nor submitted.
When the payload decodes (after a successful provisioning step and an answered
blockhash request), the one signing call of the run is the call of the decoded
format. -/
theorem executeSwap_decodes_versioned_first (E : Env σ) (svc : Service) (wallet : Wallet)
    (swapTransaction : String) (w : World σ) :
    (∀ v, deserializeTransaction E (E.base64Decode swapTransaction) = .ok (.versioned v) ↔
      E.versionedDeserialize (E.base64Decode swapTransaction) = .ok v) ∧
    (∀ l, deserializeTransaction E (E.base64Decode swapTransaction) = .ok (.legacy l) ↔
      (∃ e, E.versionedDeserialize (E.base64Decode swapTransaction) = .error e) ∧
        E.transactionFrom (E.base64Decode swapTransaction) = .ok l) ∧
    (∀ e1 e2, E.versionedDeserialize (E.base64Decode swapTransaction) = .error e1 →
      E.transactionFrom (E.base64Decode swapTransaction) = .error e2 →
      (∃ e, (executeSwap E svc wallet swapTransaction w).1 = .error e) ∧
      (executeSwap E svc wallet swapTransaction w).2.trace =
        match w.currentSwapParams with
        | none => w.trace
        | some p => (verifyTokenAccounts E svc wallet p.inputMint p.outputMint w).2.trace) ∧
    (∀ p accounts w1 tx latest l2,
      w.currentSwapParams = some p →
      verifyTokenAccounts E svc wallet p.inputMint p.outputMint w = (.ok accounts, w1) →
      deserializeTransaction E (E.base64Decode swapTransaction) = .ok tx →
      E.getLatestBlockhash (some TRANSACTION_CONFIG.CONFIRMATION_COMMITMENT) w1.ledger
        = (.ok latest, l2) →
      ∃ signing rest,
        (executeSwap E svc wallet swapTransaction w).2.trace =
          w1.trace ++ [swapBlockhashRequest, signing] ++ rest ∧
        signing.isSigning = true ∧
        signing.isVersionedSign = tx.isVersioned ∧
        ∀ ev ∈ rest, ev.isSigning = false) := by
  refine ⟨fun v => deserializeTransaction_versioned_iff E _ v,
    fun l => deserializeTransaction_legacy_iff E _ l, ?_, ?_⟩
  · intro e1 e2 h1 h2
    have hd := deserializeTransaction_error E _ e1 e2 h1 h2
    cases hp : w.currentSwapParams with
    | none =>
      rw [executeSwap_without_params E svc wallet swapTransaction w hp]
      exact ⟨⟨_, rfl⟩, rfl⟩
    | some p =>
      rw [executeSwap_with_params E svc wallet swapTransaction w p hp]
      dsimp only
      rcases verifyTokenAccounts E svc wallet p.inputMint p.outputMint w with ⟨_ | a, w1⟩
      · exact ⟨⟨_, rfl⟩, rfl⟩
      · dsimp only
        rw [sendSwap_decode_error E wallet swapTransaction w1 e2 hd]
        exact ⟨⟨_, rfl⟩, rfl⟩
  · intro p accounts w1 tx latest l2 hp hv hd hl
    obtain ⟨rest, htrace, hrest⟩ :=
      executeSwap_trace E svc wallet swapTransaction w w1 p accounts tx latest l2 hp hv hd hl
    refine ⟨signEvent wallet tx latest.blockhash, rest, htrace,
      signEvent_isSigning wallet tx latest.blockhash,
      signEvent_isVersionedSign wallet tx latest.blockhash, ?_⟩
    rcases hrest with h | ⟨raw, w3, -, h | ⟨sig, h⟩⟩ <;> subst h <;> simp [Event.isSigning]

/-- C4 at a payload that neither decoder accepts, with the output account
missing: the run fails with the Legacy decoder's error, and its calls are those
of the provisioning step.  At a payload that both decoders accept, the signing
call is the versioned one. -/
theorem executeSwap_decodes_versioned_first_witness :
    ((∃ e, (executeSwap (simEnv simOk) simService simWallet "X" simMissing).1 = .error e) ∧
      (executeSwap (simEnv simOk) simService simWallet "X" simMissing).2.trace =
        (verifyTokenAccounts (simEnv simOk) simService simWallet (.key SOL_MINT)
          (.key USDC_MINT) simMissing).2.trace) ∧
    (∃ signing rest,
      (executeSwap (simEnv simOk) simService simWallet "B" simReady).2.trace =
        [.getAccountInfo "owner/So11111111111111111111111111111111111111112",
          .getAccountInfo simUsdcAccount] ++ [swapBlockhashRequest, signing] ++ rest ∧
      signing.isSigning = true ∧
      signing.isVersionedSign = true ∧
      ∀ ev ∈ rest, ev.isSigning = false) :=
  ⟨(executeSwap_decodes_versioned_first (simEnv simOk) simService simWallet "X" simMissing).2.2.1
      ⟨"versioned: bad payload"⟩ ⟨"legacy: bad payload"⟩ rfl rfl,
    (executeSwap_decodes_versioned_first (simEnv simOk) simService simWallet "B" simReady).2.2.2
      simParams simAccounts
      { ledger := { accounts := [simUsdcAccount], pending := [], received := 0 }
        currentSwapParams := some simParams
        trace := [.getAccountInfo "owner/So11111111111111111111111111111111111111112",
          .getAccountInfo simUsdcAccount] }
      (.versioned simVersionedTx) simOk.latest
      { accounts := [simUsdcAccount], pending := [], received := 0 } rfl rfl rfl rfl⟩

/-- C5: in a run of `executeSwap` that reaches the signing step (provisioning
succeeded, the blockhash request was answered with `latest`): a Legacy
transaction is handed to the signer with `recentBlockhash` set to the blockhash
just fetched and `feePayer` set to the wallet's public key, its other fields as
decoded; a Versioned transaction is handed to the signer exactly as decoded, and
what is submitted is that transaction with a new signature list only, so its
blockhash and fee payer are those of the payload. -/
theorem executeSwap_sign_fields (E : Env σ) (svc : Service) (wallet : Wallet)
    (swapTransaction : String) (w w1 : World σ) (p : SwapParams) (accounts : TokenAccounts)
    (latest : BlockhashWithExpiryBlockHeight) (l2 : σ)
    (hp : w.currentSwapParams = some p)
    (hv : verifyTokenAccounts E svc wallet p.inputMint p.outputMint w = (.ok accounts, w1))
    (hl : E.getLatestBlockhash (some TRANSACTION_CONFIG.CONFIRMATION_COMMITMENT) w1.ledger
      = (.ok latest, l2)) :
    (∀ l, deserializeTransaction E (E.base64Decode swapTransaction) = .ok (.legacy l) →
      ∃ signing rest,
        (executeSwap E svc wallet swapTransaction w).2.trace =
          w1.trace ++ [swapBlockhashRequest, signing] ++ rest ∧
        (signing = .walletSignTransaction
            { l with recentBlockhash := some latest.blockhash,
                     feePayer := some wallet.publicKey } ∨
          signing = .transactionSign
            { l with recentBlockhash := some latest.blockhash,
                     feePayer := some wallet.publicKey }) ∧
        ∀ ev ∈ rest, ev.isSigning = false) ∧
    (∀ v, deserializeTransaction E (E.base64Decode swapTransaction) = .ok (.versioned v) →
      ∃ rest,
        (executeSwap E svc wallet swapTransaction w).2.trace =
          w1.trace ++ [swapBlockhashRequest, .versionedSign v] ++ rest ∧
        (∀ ev ∈ rest, ev.isSigning = false) ∧
        ∀ raw ∈ submitted rest,
          ∃ sigs, raw = .versioned { v with signatures := sigs } ∧
            raw.blockhash = some v.message.recentBlockhash ∧
            VersionedTransaction.feePayer { v with signatures := sigs } = v.feePayer) := by
  constructor
  · intro l hd
    obtain ⟨rest, htrace, hrest⟩ :=
      executeSwap_trace E svc wallet swapTransaction w w1 p accounts _ latest l2 hp hv hd hl
    refine ⟨_, rest, htrace, ?_, ?_⟩
    · unfold signEvent
      cases wallet.signTransaction
      · exact Or.inr rfl
      · exact Or.inl rfl
    · rcases hrest with h | ⟨raw, w3, -, h | ⟨sig, h⟩⟩ <;> subst h <;> simp [Event.isSigning]
  · intro v hd
    obtain ⟨rest, htrace, hrest⟩ :=
      executeSwap_trace E svc wallet swapTransaction w w1 p accounts _ latest l2 hp hv hd hl
    refine ⟨rest, htrace, ?_, ?_⟩
    · rcases hrest with h | ⟨raw, w3, -, h | ⟨sig, h⟩⟩ <;> subst h <;> simp [Event.isSigning]
    · rcases hrest with h | ⟨raw, w3, hs, h | ⟨sig, h⟩⟩
      · subst h
        simp [submitted]
      · subst h
        obtain ⟨sigs, hraw⟩ := signAndSerialize_versioned_ok E wallet v _ _ _ raw hs
        subst hraw
        intro raw hmem
        simp only [submitted, List.mem_singleton] at hmem
        subst hmem
        exact ⟨sigs, rfl, rfl, rfl⟩
      · subst h
        obtain ⟨sigs, hraw⟩ := signAndSerialize_versioned_ok E wallet v _ _ _ raw hs
        subst hraw
        intro raw hmem
        simp only [submitted, List.mem_singleton] at hmem
        subst hmem
        exact ⟨sigs, rfl, rfl, rfl⟩

/-- C5 in the small world: a Legacy payload is signed on the fetched blockhash
"freshHash" with the wallet as fee payer. -/
theorem executeSwap_sign_fields_witness :
    ∃ signing rest,
      (executeSwap (simEnv simOk) simService simWallet "L" simReady).2.trace =
        [.getAccountInfo "owner/So11111111111111111111111111111111111111112",
          .getAccountInfo simUsdcAccount] ++ [swapBlockhashRequest, signing] ++ rest ∧
      (signing = .walletSignTransaction
          { simLegacyTx with recentBlockhash := some "freshHash", feePayer := some "owner" } ∨
        signing = .transactionSign
          { simLegacyTx with recentBlockhash := some "freshHash", feePayer := some "owner" }) ∧
      ∀ ev ∈ rest, ev.isSigning = false :=
  (executeSwap_sign_fields (simEnv simOk) simService simWallet "L" simReady
    { ledger := { accounts := [simUsdcAccount], pending := [], received := 0 }
      currentSwapParams := some simParams
      trace := [.getAccountInfo "owner/So11111111111111111111111111111111111111112",
        .getAccountInfo simUsdcAccount] }
    simParams simAccounts simOk.latest
    { accounts := [simUsdcAccount], pending := [], received := 0 } rfl rfl rfl).1
    simLegacyTx rfl

/-! ## Account creation is not awaited (C2, C3) -/

/-- C2, at the failing input: on a ledger that shows a created account only
once its creation is confirmed (a submission leaves the visible accounts as they
are), two calls of `verifyTokenAccounts` in sequence for the same owner and the
missing USDC account both return, and submit the creation twice. -/
theorem verifyTokenAccounts_twice_submits_twice :
    (∀ raw options s,
      ((simEnv simOk).sendRawTransaction raw options s).2.accounts = s.accounts) ∧
    (verifyTokenAccountsTwice (simEnv simOk) simService simWallet (.key SOL_MINT)
      (.key USDC_MINT) simMissing).1 = .ok simAccounts ∧
    creationLog (verifyTokenAccountsTwice (simEnv simOk) simService simWallet (.key SOL_MINT)
      (.key USDC_MINT) simMissing).2.trace =
      [some (simUsdcAccount, USDC_MINT), some (simUsdcAccount, USDC_MINT)] := by
  refine ⟨?_, rfl, by decide⟩
  intro raw options s
  simp only [simEnv, simOk]

/-- C3, at the failing input: `verifyTokenAccounts` submits the creation of the
missing USDC account and returns its address without any confirmation request,
while the ledger does not yet show the account; the run of `executeSwap` that
follows signs and submits the swap with the creation still unconfirmed (the only
confirmation request of the run is the one for the swap's signature, made after
the swap was submitted). -/
theorem verifyTokenAccounts_returns_unconfirmed :
    (verifyTokenAccounts (simEnv simOk) simService simWallet (.key SOL_MINT) (.key USDC_MINT)
      simMissing).1 = .ok simAccounts ∧
    creationLog (verifyTokenAccounts (simEnv simOk) simService simWallet (.key SOL_MINT)
      (.key USDC_MINT) simMissing).2.trace = [some (simUsdcAccount, USDC_MINT)] ∧
    confirmations (verifyTokenAccounts (simEnv simOk) simService simWallet (.key SOL_MINT)
      (.key USDC_MINT) simMissing).2.trace = [] ∧
    (verifyTokenAccounts (simEnv simOk) simService simWallet (.key SOL_MINT) (.key USDC_MINT)
      simMissing).2.ledger = { accounts := [], pending := [simUsdcAccount], received := 1 } ∧
    (executeSwap (simEnv simOk) simService simWallet "V" simMissing).1 = .ok "sig" ∧
    (executeSwap (simEnv simOk) simService simWallet "V" simMissing).2.trace.map Event.callName =
      ["getAccountInfo", "getAccountInfo", "getLatestBlockhash", "sign", "sendRawTransaction",
        "getLatestBlockhash", "sign", "sendRawTransaction", "confirmTransaction"] := by
  refine ⟨rfl, by decide, by decide, by decide, rfl, by decide⟩

/-! ## The format preference (C6) -/

/-- C6, at the failing input: the test's call on network 'mainnet' with
`useLegacyTransaction = true` posts a body whose `asLegacyTransaction` is false. -/
theorem createSwapTransaction_ignores_useLegacyTransaction :
    (postedBodies (createSwapTransaction (simEnv simOk) simService "owner" (.key SOL_MINT)
      (.key USDC_MINT) "20000000" 50 (some true) (simWorld [] none)).2.trace).map
        (fun body => body.asLegacyTransaction) = [false] := by
  decide

/-! ## The quote (C7) -/

/-- C7 fails: when the quote endpoint answers with a body that has no
`outAmount`, or with `outAmount` zero, `getQuote` returns that body. -/
theorem getQuote_returns_missing_outAmount :
    (getQuote (simEnv simQuoteWithoutAmount) simService (.key SOL_MINT) (.key USDC_MINT)
      "1000000000" 50 (simWorld [] none)).1
      = .ok { outAmount := none, other := [("error", "no route")] } ∧
    (getQuote (simEnv simQuoteZero) simService (.key SOL_MINT) (.key USDC_MINT)
      "1000000000" 50 (simWorld [] none)).1 = .ok { outAmount := some 0, other := [] } :=
  ⟨rfl, rfl⟩

set_option maxRecDepth 100000 in
/-- The address requested for the sampler's quote, and the encoding of a value
that holds reserved characters. -/
theorem quoteUrl_encodes_values :
    quoteUrl { beforeQuery := "https://quote-api.jup.ag/v6/quote", searchParams := [],
               fragment := "" }
      (.str "So11111111111111111111111111111111111111112") (.key USDC_MINT) "1000000000" 100 =
      "https://quote-api.jup.ag/v6/quote?inputMint=So11111111111111111111111111111111111111112&outputMint=EPjFWdd5AufqSSqeM2qN1xzybapC8G4wEGGkZwyTDt1v&amount=1000000000&slippageBps=100&onlyDirectRoutes=true&platformFeeBps=0&maxAccounts=8" ∧
    formUrlEncode "1+1 a/b" = "1%2B1+a%2Fb" := by
  constructor <;> decide

/-- C7 as amended: when the address is malformed `getQuote` fails with that
error and makes no request; otherwise it makes exactly one request, to the
address of `quoteUrl`, and returns the body of the answer unchanged or fails
with the error of that request.  It does not look at `outAmount`. -/
theorem getQuote_returns_answer (E : Env σ) (svc : Service) (inputMint outputMint : MintArg)
    (amount : String) (slippageBps : Nat) (w : World σ) :
    getQuote E svc inputMint outputMint amount slippageBps w =
      match E.parseUrl (svc.apiUrl ++ "/quote") with
      | .error e => (.error e, w)
      | .ok url =>
        ((E.axiosGet (quoteUrl url inputMint outputMint amount slippageBps) w.ledger).1,
          { ledger :=
              (E.axiosGet (quoteUrl url inputMint outputMint amount slippageBps) w.ledger).2
            currentSwapParams := w.currentSwapParams
            trace := w.trace ++
              [.axiosGet (quoteUrl url inputMint outputMint amount slippageBps)] }) := by
  unfold getQuote
  cases hu : E.parseUrl (svc.apiUrl ++ "/quote") with
  | error e => simp [Prog.bind_run, Prog.ofExcept, hu]
  | ok url =>
    simp only [Prog.bind_run, Prog.ofExcept, hu]
    rcases hg : E.axiosGet (quoteUrl url inputMint outputMint amount slippageBps) w.ledger
      with ⟨_ | q, l⟩
    · rw [Prog.call_run _ _ _ _ _ hg]
    · rw [Prog.call_run _ _ _ _ _ hg]
      rfl

/-! ## Submission and confirmation (C8, C9, C10) -/

/-- The end of a run of `executeSwap` that reached the submission: the result
and the calls, from the answers to the submission and to the confirmation request. -/
theorem executeSwap_submitted (E : Env σ) (svc : Service) (wallet : Wallet) (payload : String)
    (w w1 w3 : World σ) (p : SwapParams) (accounts : TokenAccounts) (tx : AnyTransaction)
    (latest : BlockhashWithExpiryBlockHeight) (l2 : σ) (raw : RawTransaction)
    (hp : w.currentSwapParams = some p)
    (hv : verifyTokenAccounts E svc wallet p.inputMint p.outputMint w = (.ok accounts, w1))
    (hd : deserializeTransaction E (E.base64Decode payload) = .ok tx)
    (hl : E.getLatestBlockhash (some TRANSACTION_CONFIG.CONFIRMATION_COMMITMENT) w1.ledger
      = (.ok latest, l2))
    (hs : signAndSerialize E wallet tx latest.blockhash (afterBlockhash w1 l2) = (.ok raw, w3)) :
    executeSwap E svc wallet payload w =
      match E.sendRawTransaction raw swapSendOptions w3.ledger with
      | (.error e, l4) =>
        (.error e, { w3 with
          ledger := l4, trace := w3.trace ++ [.sendRawTransaction raw swapSendOptions] })
      | (.ok sig, l4) =>
        match E.confirmTransaction (swapConfirmStrategy sig latest)
          TRANSACTION_CONFIG.CONFIRMATION_COMMITMENT l4 with
        | (.error e, l5) =>
          (.error e, { w3 with
            ledger := l5
            trace := w3.trace ++ [.sendRawTransaction raw swapSendOptions] ++
              [.confirmTransaction (swapConfirmStrategy sig latest)
                TRANSACTION_CONFIG.CONFIRMATION_COMMITMENT] })
        | (.ok confirmation, l5) =>
          (match confirmation.value.err with
            | some err =>
              if err.truthy then .error ⟨"Transaction failed: " ++ err.interpolated⟩
              else .ok sig
            | none => .ok sig,
           { w3 with
            ledger := l5
            trace := w3.trace ++ [.sendRawTransaction raw swapSendOptions] ++
              [.confirmTransaction (swapConfirmStrategy sig latest)
                TRANSACTION_CONFIG.CONFIRMATION_COMMITMENT] }) := by
  rw [executeSwap_with_params E svc wallet payload w p hp, hv]
  dsimp only
  rw [sendSwap_decoded E wallet payload w1 tx latest l2 hd hl, hs]

/-- C8 fails: with `maxRetries = 3`, when the network entry point answers the
first two submissions with a rate-limit response and would accept the third,
`executeSwap` fails with the first rate-limit error after one submission, and
requests no confirmation. -/
theorem executeSwap_fails_at_first_rate_limit :
    (executeSwap (simEnv simRateLimitedTwice) simService simWallet "V" simReady).1
      = .error ⟨"429 Too Many Requests"⟩ ∧
    (submitted (executeSwap (simEnv simRateLimitedTwice) simService simWallet "V"
      simReady).2.trace).length = 1 ∧
    confirmations (executeSwap (simEnv simRateLimitedTwice) simService simWallet "V"
      simReady).2.trace = [] ∧
    swapSendOptions.maxRetries = some 3 := by
  refine ⟨rfl, by decide, by decide, rfl⟩

/-- C8 as amended: `executeSwap` submits the signed swap transaction once, with
`maxRetries = 3` among the options of that submission.  When the submission is
answered with an error, of whatever kind, `executeSwap` fails with that error,
having made no further submission and no confirmation request; when it is
accepted, the next call is the confirmation request for the returned signature. -/
theorem executeSwap_submits_once (E : Env σ) (svc : Service) (wallet : Wallet)
    (swapTransaction : String) (w w1 w3 : World σ) (p : SwapParams) (accounts : TokenAccounts)
    (tx : AnyTransaction) (latest : BlockhashWithExpiryBlockHeight) (l2 : σ)
    (raw : RawTransaction)
    (hp : w.currentSwapParams = some p)
    (hv : verifyTokenAccounts E svc wallet p.inputMint p.outputMint w = (.ok accounts, w1))
    (hd : deserializeTransaction E (E.base64Decode swapTransaction) = .ok tx)
    (hl : E.getLatestBlockhash (some TRANSACTION_CONFIG.CONFIRMATION_COMMITMENT) w1.ledger
      = (.ok latest, l2))
    (hs : signAndSerialize E wallet tx latest.blockhash (afterBlockhash w1 l2) = (.ok raw, w3)) :
    swapSendOptions.maxRetries = some 3 ∧
    (∀ e l4, E.sendRawTransaction raw swapSendOptions w3.ledger = (.error e, l4) →
      (executeSwap E svc wallet swapTransaction w).1 = .error e ∧
      (executeSwap E svc wallet swapTransaction w).2.trace =
        w3.trace ++ [.sendRawTransaction raw swapSendOptions]) ∧
    (∀ sig l4, E.sendRawTransaction raw swapSendOptions w3.ledger = (.ok sig, l4) →
      (executeSwap E svc wallet swapTransaction w).2.trace =
        w3.trace ++ [.sendRawTransaction raw swapSendOptions,
          .confirmTransaction (swapConfirmStrategy sig latest)
            TRANSACTION_CONFIG.CONFIRMATION_COMMITMENT]) := by
  have hrun := executeSwap_submitted E svc wallet swapTransaction w w1 w3 p accounts tx latest
    l2 raw hp hv hd hl hs
  refine ⟨rfl, ?_, ?_⟩
  · intro e l4 hsend
    rw [hrun, hsend]
    exact ⟨rfl, rfl⟩
  · intro sig l4 hsend
    rw [hrun, hsend]
    dsimp only
    rcases E.confirmTransaction (swapConfirmStrategy sig latest)
      TRANSACTION_CONFIG.CONFIRMATION_COMMITMENT l4 with ⟨_ | c, l5⟩ <;> simp

/-- The result of a run of `executeSwap` in which the swap transaction was
submitted (signature `sig`) and the confirmation `c` was received: the signature
`sig` when the `err` of `c` is null (or falsy); otherwise the run fails with the
message "Transaction failed: " followed by what string interpolation gives for
the `err`. -/
theorem executeSwap_result_after_confirmation (E : Env σ) (svc : Service) (wallet : Wallet)
    (swapTransaction : String) (w w1 w3 : World σ) (p : SwapParams) (accounts : TokenAccounts)
    (tx : AnyTransaction) (latest : BlockhashWithExpiryBlockHeight) (l2 l4 l5 : σ)
    (raw : RawTransaction) (sig : TxSignature) (c : Confirmation)
    (hp : w.currentSwapParams = some p)
    (hv : verifyTokenAccounts E svc wallet p.inputMint p.outputMint w = (.ok accounts, w1))
    (hd : deserializeTransaction E (E.base64Decode swapTransaction) = .ok tx)
    (hl : E.getLatestBlockhash (some TRANSACTION_CONFIG.CONFIRMATION_COMMITMENT) w1.ledger
      = (.ok latest, l2))
    (hs : signAndSerialize E wallet tx latest.blockhash (afterBlockhash w1 l2) = (.ok raw, w3))
    (hsend : E.sendRawTransaction raw swapSendOptions w3.ledger = (.ok sig, l4))
    (hconf : E.confirmTransaction (swapConfirmStrategy sig latest)
      TRANSACTION_CONFIG.CONFIRMATION_COMMITMENT l4 = (.ok c, l5)) :
    (c.value.err = none → (executeSwap E svc wallet swapTransaction w).1 = .ok sig) ∧
    (∀ s, (executeSwap E svc wallet swapTransaction w).1 = .ok s → s = sig) ∧
    (∀ err, c.value.err = some err → err.truthy = true →
      (executeSwap E svc wallet swapTransaction w).1 =
        .error ⟨"Transaction failed: " ++ err.interpolated⟩) := by
  have hrun := executeSwap_submitted E svc wallet swapTransaction w w1 w3 p accounts tx latest
    l2 raw hp hv hd hl hs
  rw [hsend] at hrun
  dsimp only at hrun
  rw [hconf] at hrun
  dsimp only at hrun
  rw [hrun]
  cases herr : c.value.err with
  | none => simp
  | some err =>
    cases ht : err.truthy <;> simp [ht]

/-- C9, at the failing input: the swap was submitted and its confirmation
reports an execution error that is an object (a failed instruction with a
custom program error code).  `executeSwap` fails and returns no signature, but
its message is "Transaction failed: [object Object]", the same for two
different errors: the error detail is not in it. -/
theorem executeSwap_object_error_loses_detail :
    simCustomError1.confirmErr ≠ simCustomError6001.confirmErr ∧
    (executeSwap (simEnv simCustomError1) simService simWallet "V" simReady).1 =
      .error ⟨"Transaction failed: [object Object]"⟩ ∧
    (executeSwap (simEnv simCustomError6001) simService simWallet "V" simReady).1 =
      .error ⟨"Transaction failed: [object Object]"⟩ ∧
    (executeSwap (simEnv simFailsOnChain) simService simWallet "V" simReady).1 =
      .error ⟨"Transaction failed: InsufficientFundsForRent"⟩ := by
  refine ⟨by decide, rfl, rfl, rfl⟩

/-- C8 as amended, in the small world with a rate-limited entry point: the run
fails with the rate-limit error of its one submission. -/
theorem executeSwap_submits_once_witness :
    (executeSwap (simEnv simRateLimitedTwice) simService simWallet "V" simReady).1
      = .error ⟨"429 Too Many Requests"⟩ ∧
    (executeSwap (simEnv simRateLimitedTwice) simService simWallet "V" simReady).2.trace =
      [.getAccountInfo "owner/So11111111111111111111111111111111111111112",
        .getAccountInfo simUsdcAccount, swapBlockhashRequest, .versionedSign simVersionedTx] ++
      [.sendRawTransaction (.versioned { simVersionedTx with signatures := [some "signed"] })
        swapSendOptions] :=
  (executeSwap_submits_once (simEnv simRateLimitedTwice) simService simWallet "V" simReady
    { ledger := { accounts := [simUsdcAccount], pending := [], received := 0 }
      currentSwapParams := some simParams
      trace := [.getAccountInfo "owner/So11111111111111111111111111111111111111112",
        .getAccountInfo simUsdcAccount] }
    { ledger := { accounts := [simUsdcAccount], pending := [], received := 0 }
      currentSwapParams := some simParams
      trace := [.getAccountInfo "owner/So11111111111111111111111111111111111111112",
        .getAccountInfo simUsdcAccount, swapBlockhashRequest, .versionedSign simVersionedTx] }
    simParams simAccounts (.versioned simVersionedTx) simOk.latest
    { accounts := [simUsdcAccount], pending := [], received := 0 }
    (.versioned { simVersionedTx with signatures := [some "signed"] })
    rfl rfl rfl rfl rfl).2.1
    ⟨"429 Too Many Requests"⟩ { accounts := [simUsdcAccount], pending := [], received := 1 } rfl

/-- C10 fails for a Versioned transaction: the transaction submitted carries the
aggregator's blockhash, and the pair handed to the confirmation is the one of
the blockhash that `executeSwap` fetched, a different one. -/
theorem executeSwap_versioned_confirms_with_other_blockhash :
    (submitted (executeSwap (simEnv simOk) simService simWallet "V" simReady).2.trace).map
      RawTransaction.blockhash = [some "aggregatorHash"] ∧
    confirmations (executeSwap (simEnv simOk) simService simWallet "V" simReady).2.trace =
      [{ signature := "sig", blockhash := "freshHash", lastValidBlockHeight := 500 }] := by
  refine ⟨by decide, by decide⟩

/-- C10 as amended: in a run of `executeSwap` whose swap submission was
accepted, the pair handed to the confirmation step is the pair that
`executeSwap` fetched just before signing.  For a Legacy transaction, signed by
the keypair or by an adapter that changes the signature list only, the blockhash
of that pair is the one in the transaction submitted; for a Versioned
transaction the transaction submitted carries the blockhash of the payload. -/
theorem executeSwap_confirms_with_fetched_blockhash (E : Env σ) (svc : Service)
    (wallet : Wallet) (swapTransaction : String) (w w1 w3 : World σ) (p : SwapParams)
    (accounts : TokenAccounts) (tx : AnyTransaction) (latest : BlockhashWithExpiryBlockHeight)
    (l2 l4 : σ) (raw : RawTransaction) (sig : TxSignature)
    (hp : w.currentSwapParams = some p)
    (hv : verifyTokenAccounts E svc wallet p.inputMint p.outputMint w = (.ok accounts, w1))
    (hd : deserializeTransaction E (E.base64Decode swapTransaction) = .ok tx)
    (hl : E.getLatestBlockhash (some TRANSACTION_CONFIG.CONFIRMATION_COMMITMENT) w1.ledger
      = (.ok latest, l2))
    (hs : signAndSerialize E wallet tx latest.blockhash (afterBlockhash w1 l2) = (.ok raw, w3))
    (hsend : E.sendRawTransaction raw swapSendOptions w3.ledger = (.ok sig, l4)) :
    (executeSwap E svc wallet swapTransaction w).2.trace =
      w3.trace ++ [.sendRawTransaction raw swapSendOptions,
        .confirmTransaction
          { signature := sig, blockhash := latest.blockhash,
            lastValidBlockHeight := latest.lastValidBlockHeight }
          TRANSACTION_CONFIG.CONFIRMATION_COMMITMENT] ∧
    (∀ l, tx = .legacy l →
      (∀ f, wallet.signTransaction = some f →
        ∀ t, ∃ sigs, f t = .ok { t with signatures := sigs }) →
      raw.blockhash = some latest.blockhash) ∧
    (∀ v, tx = .versioned v → raw.blockhash = some v.message.recentBlockhash) := by
  refine ⟨?_, ?_, ?_⟩
  · rw [executeSwap_submitted E svc wallet swapTransaction w w1 w3 p accounts tx latest
      l2 raw hp hv hd hl hs, hsend]
    dsimp only
    rcases E.confirmTransaction (swapConfirmStrategy sig latest)
      TRANSACTION_CONFIG.CONFIRMATION_COMMITMENT l4 with ⟨_ | c, l5⟩ <;>
      simp [swapConfirmStrategy]
  · intro l htx hadapter
    subst htx
    obtain ⟨sigs, hraw⟩ := signAndSerialize_legacy_ok E wallet l _ _ _ raw hadapter hs
    rw [hraw]
    rfl
  · intro v htx
    subst htx
    obtain ⟨sigs, hraw⟩ := signAndSerialize_versioned_ok E wallet v _ _ _ raw hs
    rw [hraw]
    rfl

/-- C10 as amended, in the small world with a Legacy payload: the transaction
submitted is on the fetched blockhash "freshHash". -/
theorem executeSwap_confirms_with_fetched_blockhash_witness :
    RawTransaction.blockhash (.legacy { simLegacyTx with
      recentBlockhash := some "freshHash", feePayer := some "owner",
      signatures := [("owner", some "signed")] }) = some "freshHash" :=
  (executeSwap_confirms_with_fetched_blockhash (simEnv simOk) simService simWallet "L" simReady
    { ledger := { accounts := [simUsdcAccount], pending := [], received := 0 }
      currentSwapParams := some simParams
      trace := [.getAccountInfo "owner/So11111111111111111111111111111111111111112",
        .getAccountInfo simUsdcAccount] }
    { ledger := { accounts := [simUsdcAccount], pending := [], received := 0 }
      currentSwapParams := some simParams
      trace := [.getAccountInfo "owner/So11111111111111111111111111111111111111112",
        .getAccountInfo simUsdcAccount, swapBlockhashRequest,
        .transactionSign { simLegacyTx with
          recentBlockhash := some "freshHash", feePayer := some "owner" }] }
    simParams simAccounts (.legacy simLegacyTx) simOk.latest
    { accounts := [simUsdcAccount], pending := [], received := 0 }
    { accounts := [simUsdcAccount], pending := [], received := 1 }
    (.legacy { simLegacyTx with
      recentBlockhash := some "freshHash", feePayer := some "owner",
      signatures := [("owner", some "signed")] }) "sig"
    rfl rfl rfl rfl rfl rfl).2.1 simLegacyTx rfl (fun f h => by simp [simWallet] at h)

/-! ## After the confirmation (C11) -/

/-- C11 fails: when the confirmation of the submitted swap ends as expired,
`executeSwap` fails with that error, and the run made one blockhash request,
one submission, one confirmation request and no quote request: nothing is
restarted. -/
theorem executeSwap_expired_is_not_restarted :
    (executeSwap simExpiredEnv simService simWallet "V" simReady).1 =
      .error ⟨"TransactionExpiredBlockheightExceededError: block height exceeded"⟩ ∧
    (executeSwap simExpiredEnv simService simWallet "V" simReady).2.trace.map Event.callName =
      ["getAccountInfo", "getAccountInfo", "getLatestBlockhash", "sign", "sendRawTransaction",
        "confirmTransaction"] := by
  refine ⟨rfl, by decide⟩

/-- C11 as amended: when the confirmation of a submitted swap ends as expired
(the confirmation request is answered with an error), `executeSwap` fails with
that error and the confirmation request is the last call of the run: no quote
is fetched, no blockhash is fetched, nothing is submitted again, and the
signature is not polled again.  There is one attempt. -/
theorem executeSwap_ends_at_expired_confirmation (E : Env σ) (svc : Service) (wallet : Wallet)
    (swapTransaction : String) (w w1 w3 : World σ) (p : SwapParams) (accounts : TokenAccounts)
    (tx : AnyTransaction) (latest : BlockhashWithExpiryBlockHeight) (l2 l4 l5 : σ)
    (raw : RawTransaction) (sig : TxSignature) (expired : Error)
    (hp : w.currentSwapParams = some p)
    (hv : verifyTokenAccounts E svc wallet p.inputMint p.outputMint w = (.ok accounts, w1))
    (hd : deserializeTransaction E (E.base64Decode swapTransaction) = .ok tx)
    (hl : E.getLatestBlockhash (some TRANSACTION_CONFIG.CONFIRMATION_COMMITMENT) w1.ledger
      = (.ok latest, l2))
    (hs : signAndSerialize E wallet tx latest.blockhash (afterBlockhash w1 l2) = (.ok raw, w3))
    (hsend : E.sendRawTransaction raw swapSendOptions w3.ledger = (.ok sig, l4))
    (hconf : E.confirmTransaction (swapConfirmStrategy sig latest)
      TRANSACTION_CONFIG.CONFIRMATION_COMMITMENT l4 = (.error expired, l5)) :
    executeSwap E svc wallet swapTransaction w =
      (.error expired,
        { ledger := l5
          currentSwapParams := w3.currentSwapParams
          trace := w1.trace ++ [swapBlockhashRequest, signEvent wallet tx latest.blockhash,
            .sendRawTransaction raw swapSendOptions,
            .confirmTransaction (swapConfirmStrategy sig latest)
              TRANSACTION_CONFIG.CONFIRMATION_COMMITMENT] }) := by
  have hw := signAndSerialize_world E wallet tx latest.blockhash (afterBlockhash w1 l2)
  rw [hs] at hw
  simp only at hw
  rw [executeSwap_submitted E svc wallet swapTransaction w w1 w3 p accounts tx latest
    l2 raw hp hv hd hl hs, hsend]
  dsimp only
  rw [hconf]
  dsimp only
  rw [hw]
  simp [afterBlockhash]

/-- C11 as amended, in the small world with an expiring ledger. -/
theorem executeSwap_ends_at_expired_confirmation_witness :
    executeSwap simExpiredEnv simService simWallet "V" simReady =
      (.error ⟨"TransactionExpiredBlockheightExceededError: block height exceeded"⟩,
        { ledger := { accounts := [simUsdcAccount], pending := [], received := 1 }
          currentSwapParams := some simParams
          trace := [.getAccountInfo "owner/So11111111111111111111111111111111111111112",
              .getAccountInfo simUsdcAccount] ++
            [swapBlockhashRequest, .versionedSign simVersionedTx,
              .sendRawTransaction (.versioned { simVersionedTx with signatures := [some "signed"] })
                swapSendOptions,
              .confirmTransaction
                { signature := "sig", blockhash := "freshHash", lastValidBlockHeight := 500 }
                TRANSACTION_CONFIG.CONFIRMATION_COMMITMENT] }) :=
  executeSwap_ends_at_expired_confirmation simExpiredEnv simService simWallet "V" simReady
    { ledger := { accounts := [simUsdcAccount], pending := [], received := 0 }
      currentSwapParams := some simParams
      trace := [.getAccountInfo "owner/So11111111111111111111111111111111111111112",
        .getAccountInfo simUsdcAccount] }
    { ledger := { accounts := [simUsdcAccount], pending := [], received := 0 }
      currentSwapParams := some simParams
      trace := [.getAccountInfo "owner/So11111111111111111111111111111111111111112",
        .getAccountInfo simUsdcAccount, swapBlockhashRequest, .versionedSign simVersionedTx] }
    simParams simAccounts (.versioned simVersionedTx) simOk.latest
    { accounts := [simUsdcAccount], pending := [], received := 0 }
    { accounts := [simUsdcAccount], pending := [], received := 1 }
    { accounts := [simUsdcAccount], pending := [], received := 1 }
    (.versioned { simVersionedTx with signatures := [some "signed"] }) "sig"
    ⟨"TransactionExpiredBlockheightExceededError: block height exceeded"⟩
    rfl rfl rfl rfl rfl rfl rfl

/-! ## The stored swap parameters (C12, C16) -/

/-- A quote request leaves `this.currentSwapParams` as it is. -/
theorem getQuote_keeps_params (E : Env σ) (svc : Service) (inputMint outputMint : MintArg)
    (amount : String) (slippageBps : Nat) (w : World σ) :
    (getQuote E svc inputMint outputMint amount slippageBps w).2.currentSwapParams
      = w.currentSwapParams := by
  unfold getQuote
  cases hu : E.parseUrl (svc.apiUrl ++ "/quote") with
  | error e => simp [Prog.bind_run, Prog.ofExcept, hu]
  | ok base =>
    simp only [Prog.bind_run, Prog.ofExcept, hu]
    rcases hg : E.axiosGet (quoteUrl base inputMint outputMint amount slippageBps) w.ledger
      with ⟨_ | q, l⟩
    · rw [Prog.call_run _ _ _ _ _ hg]
    · rw [Prog.call_run _ _ _ _ _ hg]
      rfl

/-- Whatever its outcome, `createSwapTransaction` leaves its own arguments in
`this.currentSwapParams`. -/
theorem createSwapTransaction_stores_params (E : Env σ) (svc : Service)
    (userPublicKey : PublicKey) (inputMint outputMint : MintArg) (amount : String)
    (slippageBps : Nat) (useLegacyTransaction : Option Bool) (w : World σ) :
    (createSwapTransaction E svc userPublicKey inputMint outputMint amount slippageBps
        useLegacyTransaction w).2.currentSwapParams =
      some { userPublicKey := userPublicKey, inputMint := inputMint, outputMint := outputMint,
             amount := amount, slippageBps := slippageBps } := by
  unfold createSwapTransaction
  rw [Prog.tryCatch_rethrow]
  simp only [Prog.bind_run, setCurrentSwapParams]
  have hW : (World.mk w.ledger (some (SwapParams.mk userPublicKey inputMint outputMint amount
      slippageBps)) w.trace).currentSwapParams
      = some (SwapParams.mk userPublicKey inputMint outputMint amount slippageBps) := rfl
  generalize World.mk w.ledger (some (SwapParams.mk userPublicKey inputMint outputMint amount
    slippageBps)) w.trace = W at hW ⊢
  have hq := getQuote_keeps_params E svc inputMint outputMint amount slippageBps W
  rw [hW] at hq
  rcases hg : getQuote E svc inputMint outputMint amount slippageBps W with ⟨_ | quote, w1⟩
  · rw [hg] at hq
    exact hq
  · rw [hg] at hq
    simp only at hq ⊢
    cases hids : programIdsOf svc with
    | error e => simpa [Prog.ofExcept, hids] using hq
    | ok ids =>
      simp only [Prog.ofExcept, hids]
      rcases hpost : E.axiosPost (svc.apiUrl ++ "/swap")
        (SwapRequestBody.mk quote userPublicKey WRAP_UNWRAP_SOL (!ids.VERSIONED_TRANSACTION)
          (svc.network == "devnet") PRIORITY_FEE_BPS) w1.ledger with ⟨_ | data, l⟩
      · rw [Prog.call_run _ _ _ _ _ hpost]
        exact hq
      · rw [Prog.call_run _ _ _ _ _ hpost]
        exact hq

/-- C12 fails: with request B's `createSwapTransaction` (USDC to BONK) between
request A's `createSwapTransaction` (SOL to USDC) and A's `executeSwap`, the
accounts looked up for A's transaction are those of B's mints; without B's call
they are those of A's mints. -/
theorem executeSwap_provisions_for_other_request :
    lookups (swapAlone (simEnv simOk) simService simWallet
      (simWorld [simUsdcAccount] none)).2.trace =
      ["owner/So11111111111111111111111111111111111111112",
        "owner/EPjFWdd5AufqSSqeM2qN1xzybapC8G4wEGGkZwyTDt1v"] ∧
    lookups (swapInterleaved (simEnv simOk) simService simWallet
      (simWorld [simUsdcAccount] none)).2.trace =
      ["owner/EPjFWdd5AufqSSqeM2qN1xzybapC8G4wEGGkZwyTDt1v",
        "owner/DezXAZ8z7PnrnRJjz3wXBoRgixCa6xjnB7YaB1pPB263"] := by
  refine ⟨by decide, by decide⟩

/-- C12 as amended: the accounts that `executeSwap` provisions are those derived
from the mints of the most recent `createSwapTransaction` call on the instance.
After A's call alone they are A's mints; after A's call followed by B's call
they are B's mints. -/
theorem executeSwap_provisions_latest_request (E : Env σ) (svc : Service) (wallet : Wallet)
    (swapTransaction : String) (w : World σ)
    (userA : PublicKey) (inputA outputA : MintArg) (amountA : String) (slippageA : Nat)
    (legacyA : Option Bool)
    (userB : PublicKey) (inputB outputB : MintArg) (amountB : String) (slippageB : Nat)
    (legacyB : Option Bool) :
    (executeSwap E svc wallet swapTransaction
        (createSwapTransaction E svc userA inputA outputA amountA slippageA legacyA w).2 =
      match verifyTokenAccounts E svc wallet inputA outputA
        (createSwapTransaction E svc userA inputA outputA amountA slippageA legacyA w).2 with
      | (.ok _, w1) => sendSwap E wallet swapTransaction w1
      | (.error e, w1) => (.error e, w1)) ∧
    (executeSwap E svc wallet swapTransaction
        (createSwapTransaction E svc userB inputB outputB amountB slippageB legacyB
          (createSwapTransaction E svc userA inputA outputA amountA slippageA legacyA w).2).2 =
      match verifyTokenAccounts E svc wallet inputB outputB
        (createSwapTransaction E svc userB inputB outputB amountB slippageB legacyB
          (createSwapTransaction E svc userA inputA outputA amountA slippageA legacyA w).2).2 with
      | (.ok _, w1) => sendSwap E wallet swapTransaction w1
      | (.error e, w1) => (.error e, w1)) :=
  ⟨executeSwap_with_params E svc wallet swapTransaction _ _
      (createSwapTransaction_stores_params E svc userA inputA outputA amountA slippageA legacyA w),
    executeSwap_with_params E svc wallet swapTransaction _ _
      (createSwapTransaction_stores_params E svc userB inputB outputB amountB slippageB legacyB
        _)⟩

/-- C16: on an instance whose `currentSwapParams` is null, `executeSwap` fails
with 'No current swap parameters found' and makes no call (the world is as it
was); after any call of `createSwapTransaction`, whatever its outcome, the stored
parameters are those of that call, and `executeSwap` goes on to provision the
accounts of that call's mints. -/
theorem executeSwap_needs_stored_params (E : Env σ) (svc : Service) (wallet : Wallet)
    (swapTransaction : String) :
    (∀ w : World σ, w.currentSwapParams = none →
      executeSwap E svc wallet swapTransaction w =
        (.error ⟨"No current swap parameters found"⟩, w)) ∧
    (∀ (userPublicKey : PublicKey) (inputMint outputMint : MintArg) (amount : String)
      (slippageBps : Nat) (useLegacyTransaction : Option Bool) (w : World σ),
      (createSwapTransaction E svc userPublicKey inputMint outputMint amount slippageBps
          useLegacyTransaction w).2.currentSwapParams =
        some { userPublicKey := userPublicKey, inputMint := inputMint,
               outputMint := outputMint, amount := amount, slippageBps := slippageBps } ∧
      executeSwap E svc wallet swapTransaction
          (createSwapTransaction E svc userPublicKey inputMint outputMint amount slippageBps
            useLegacyTransaction w).2 =
        match verifyTokenAccounts E svc wallet inputMint outputMint
          (createSwapTransaction E svc userPublicKey inputMint outputMint amount slippageBps
            useLegacyTransaction w).2 with
        | (.ok _, w1) => sendSwap E wallet swapTransaction w1
        | (.error e, w1) => (.error e, w1)) := by
  refine ⟨fun w hw => executeSwap_without_params E svc wallet swapTransaction w hw, ?_⟩
  intro userPublicKey inputMint outputMint amount slippageBps useLegacyTransaction w
  have hp := createSwapTransaction_stores_params E svc userPublicKey inputMint outputMint amount
    slippageBps useLegacyTransaction w
  exact ⟨hp, executeSwap_with_params E svc wallet swapTransaction _ _ hp⟩

/-- C16 in the small world: with no parameters stored, the run fails before any call. -/
theorem executeSwap_needs_stored_params_witness :
    executeSwap (simEnv simOk) simService simWallet "V" (simWorld [simUsdcAccount] none) =
      (.error ⟨"No current swap parameters found"⟩, simWorld [simUsdcAccount] none) :=
  (executeSwap_needs_stored_params (simEnv simOk) simService simWallet "V").1
    (simWorld [simUsdcAccount] none) rfl

/-! ## The order of the stages (C13) -/

theorem sendSwap_blockhash_error (E : Env σ) (wallet : Wallet) (payload : String) (w : World σ)
    (tx : AnyTransaction) (e : Error) (l2 : σ)
    (hd : deserializeTransaction E (E.base64Decode payload) = .ok tx)
    (hl : E.getLatestBlockhash (some TRANSACTION_CONFIG.CONFIRMATION_COMMITMENT) w.ledger
      = (.error e, l2)) :
    sendSwap E wallet payload w = (.error e, afterBlockhash w l2) := by
  have hcall : Prog.call swapBlockhashRequest
      (E.getLatestBlockhash (some TRANSACTION_CONFIG.CONFIRMATION_COMMITMENT)) w
      = (.error e, afterBlockhash w l2) := Prog.call_run _ _ _ _ _ hl
  simp only [sendSwap, Prog.bind_run, Prog.ofExcept, hd]
  rw [show Event.getLatestBlockhash (some TRANSACTION_CONFIG.CONFIRMATION_COMMITMENT)
    = swapBlockhashRequest from rfl, hcall]

/-- The calls of lines 193-262 from any world, stage by stage: a stage is
entered only when the one before it succeeded. -/
theorem sendSwap_stages (E : Env σ) (wallet : Wallet) (payload : String) (w1 : World σ) :
    ∃ tail, (sendSwap E wallet payload w1).2.trace = w1.trace ++ tail ∧
      ((tail = [] ∧ ∃ e, deserializeTransaction E (E.base64Decode payload) = .error e) ∨
        ∃ tx, deserializeTransaction E (E.base64Decode payload) = .ok tx ∧
          ((tail = [swapBlockhashRequest] ∧
              ∃ e, (E.getLatestBlockhash (some TRANSACTION_CONFIG.CONFIRMATION_COMMITMENT)
                w1.ledger).1 = .error e) ∨
            ∃ latest l2,
              E.getLatestBlockhash (some TRANSACTION_CONFIG.CONFIRMATION_COMMITMENT) w1.ledger
                = (.ok latest, l2) ∧
              ((tail = [swapBlockhashRequest, signEvent wallet tx latest.blockhash] ∧
                  ∃ e, (signAndSerialize E wallet tx latest.blockhash
                    (afterBlockhash w1 l2)).1 = .error e) ∨
                ∃ raw w3,
                  signAndSerialize E wallet tx latest.blockhash (afterBlockhash w1 l2)
                    = (.ok raw, w3) ∧
                  ((tail = [swapBlockhashRequest, signEvent wallet tx latest.blockhash,
                        .sendRawTransaction raw swapSendOptions] ∧
                      ∃ e, (E.sendRawTransaction raw swapSendOptions w3.ledger).1 = .error e) ∨
                    ∃ sig l4,
                      E.sendRawTransaction raw swapSendOptions w3.ledger = (.ok sig, l4) ∧
                      tail = [swapBlockhashRequest, signEvent wallet tx latest.blockhash,
                        .sendRawTransaction raw swapSendOptions,
                        .confirmTransaction (swapConfirmStrategy sig latest)
                          TRANSACTION_CONFIG.CONFIRMATION_COMMITMENT])))) := by
  cases hd : deserializeTransaction E (E.base64Decode payload) with
  | error e =>
    rw [sendSwap_decode_error E wallet payload w1 e hd]
    exact ⟨[], by simp, Or.inl ⟨rfl, e, rfl⟩⟩
  | ok tx =>
    rcases hl : E.getLatestBlockhash (some TRANSACTION_CONFIG.CONFIRMATION_COMMITMENT) w1.ledger
      with ⟨e | latest, l2⟩
    · rw [sendSwap_blockhash_error E wallet payload w1 tx e l2 hd hl]
      exact ⟨[swapBlockhashRequest], rfl, Or.inr ⟨tx, rfl, Or.inl ⟨rfl, e, rfl⟩⟩⟩
    · rw [sendSwap_decoded E wallet payload w1 tx latest l2 hd hl]
      have hw := signAndSerialize_world E wallet tx latest.blockhash (afterBlockhash w1 l2)
      rcases hs : signAndSerialize E wallet tx latest.blockhash (afterBlockhash w1 l2)
        with ⟨e | raw, w3⟩
      · rw [hs] at hw
        simp only at hw
        subst hw
        exact ⟨_, by simp [afterBlockhash],
          Or.inr ⟨tx, rfl, Or.inr ⟨latest, l2, rfl, Or.inl ⟨rfl, e, by rw [hs]⟩⟩⟩⟩
      · rw [hs] at hw
        simp only at hw
        subst hw
        dsimp only
        rcases hsend : E.sendRawTransaction raw swapSendOptions (afterBlockhash w1 l2).ledger
          with ⟨e | sig, l4⟩
        · exact ⟨_, by simp [afterBlockhash],
            Or.inr ⟨tx, rfl, Or.inr ⟨latest, l2, rfl, Or.inr ⟨raw, _, hs,
              Or.inl ⟨rfl, e, by rw [hsend]⟩⟩⟩⟩⟩
        · dsimp only
          rcases E.confirmTransaction (swapConfirmStrategy sig latest)
            TRANSACTION_CONFIG.CONFIRMATION_COMMITMENT l4 with ⟨_ | c, l5⟩
          · exact ⟨_, by simp [afterBlockhash],
              Or.inr ⟨tx, rfl, Or.inr ⟨latest, l2, rfl, Or.inr ⟨raw, _, hs,
                Or.inr ⟨sig, l4, hsend, rfl⟩⟩⟩⟩⟩
          · exact ⟨_, by simp [afterBlockhash],
              Or.inr ⟨tx, rfl, Or.inr ⟨latest, l2, rfl, Or.inr ⟨raw, _, hs,
                Or.inr ⟨sig, l4, hsend, rfl⟩⟩⟩⟩⟩

/-- C13: in every run of `executeSwap` the stages occur in a fixed order, and a
stage is entered only when the one before it succeeded.  Without stored
parameters no call is made.  When the provisioning step fails, the run ends with
its error and its calls.  Otherwise the calls of the run are those of the
provisioning step (all its account lookups and creation submissions) followed by
a tail that holds no account lookup and is, in this order: the blockhash request
(only when the payload decodes), the one signing call (only when that request was
answered), the submission of the signed transaction (only when signing and
serializing succeeded), and the confirmation request for the signature obtained
(only when the submission was accepted). -/
theorem executeSwap_stages_in_order (E : Env σ) (svc : Service) (wallet : Wallet)
    (swapTransaction : String) (w : World σ) :
    (w.currentSwapParams = none →
      (executeSwap E svc wallet swapTransaction w).2.trace = w.trace) ∧
    (∀ p, w.currentSwapParams = some p →
      (∀ e w1, verifyTokenAccounts E svc wallet p.inputMint p.outputMint w = (.error e, w1) →
        executeSwap E svc wallet swapTransaction w = (.error e, w1)) ∧
      (∀ accounts w1,
        verifyTokenAccounts E svc wallet p.inputMint p.outputMint w = (.ok accounts, w1) →
        ∃ tail, (executeSwap E svc wallet swapTransaction w).2.trace = w1.trace ++ tail ∧
          lookups tail = [] ∧
          ((tail = [] ∧
              ∃ e, deserializeTransaction E (E.base64Decode swapTransaction) = .error e) ∨
            ∃ tx, deserializeTransaction E (E.base64Decode swapTransaction) = .ok tx ∧
              ((tail = [swapBlockhashRequest] ∧
                  ∃ e, (E.getLatestBlockhash (some TRANSACTION_CONFIG.CONFIRMATION_COMMITMENT)
                    w1.ledger).1 = .error e) ∨
                ∃ latest l2,
                  E.getLatestBlockhash (some TRANSACTION_CONFIG.CONFIRMATION_COMMITMENT)
                    w1.ledger = (.ok latest, l2) ∧
                  ((tail = [swapBlockhashRequest, signEvent wallet tx latest.blockhash] ∧
                      ∃ e, (signAndSerialize E wallet tx latest.blockhash
                        (afterBlockhash w1 l2)).1 = .error e) ∨
                    ∃ raw w3,
                      signAndSerialize E wallet tx latest.blockhash (afterBlockhash w1 l2)
                        = (.ok raw, w3) ∧
                      ((tail = [swapBlockhashRequest, signEvent wallet tx latest.blockhash,
                            .sendRawTransaction raw swapSendOptions] ∧
                          ∃ e, (E.sendRawTransaction raw swapSendOptions w3.ledger).1
                            = .error e) ∨
                        ∃ sig l4,
                          E.sendRawTransaction raw swapSendOptions w3.ledger = (.ok sig, l4) ∧
                          tail = [swapBlockhashRequest, signEvent wallet tx latest.blockhash,
                            .sendRawTransaction raw swapSendOptions,
                            .confirmTransaction (swapConfirmStrategy sig latest)
                              TRANSACTION_CONFIG.CONFIRMATION_COMMITMENT])))))) := by
  refine ⟨?_, ?_⟩
  · intro hp
    rw [executeSwap_without_params E svc wallet swapTransaction w hp]
  · intro p hp
    refine ⟨?_, ?_⟩
    · intro e w1 hv
      rw [executeSwap_with_params E svc wallet swapTransaction w p hp, hv]
    · intro accounts w1 hv
      rw [executeSwap_with_params E svc wallet swapTransaction w p hp, hv]
      dsimp only
      obtain ⟨tail, htrace, hstages⟩ := sendSwap_stages E wallet swapTransaction w1
      refine ⟨tail, htrace, ?_, hstages⟩
      have hsign : ∀ tx bh, lookups [signEvent wallet tx bh] = [] := by
        intro tx bh
        cases tx with
        | versioned v => rfl
        | legacy l => unfold signEvent; cases wallet.signTransaction <;> rfl
      rcases hstages with ⟨h, -⟩ | ⟨tx, -, ⟨h, -⟩ | ⟨latest, l2, -, ⟨h, -⟩ |
        ⟨raw, w3, -, ⟨h, -⟩ | ⟨sig, l4, -, h⟩⟩⟩⟩
      · subst h; rfl
      · subst h; rfl
      · subst h
        have := hsign tx latest.blockhash
        cases hev : signEvent wallet tx latest.blockhash <;>
          simp_all [lookups, swapBlockhashRequest]
      · subst h
        have := hsign tx latest.blockhash
        cases hev : signEvent wallet tx latest.blockhash <;>
          simp_all [lookups, swapBlockhashRequest]
      · subst h
        have := hsign tx latest.blockhash
        cases hev : signEvent wallet tx latest.blockhash <;>
          simp_all [lookups, swapBlockhashRequest]

/-- C13 in the small world: a run whose provisioning step fails (a network
without program identifiers) ends with that step's error and calls; a run whose
provisioning step succeeds adds a tail without account lookups to that step's calls. -/
theorem executeSwap_stages_in_order_witness :
    executeSwap (simEnv simOk) { simService with network := "devnet" } simWallet "V" simReady =
      (.error undefinedPropertyError, simReady) ∧
    ∃ tail, (executeSwap (simEnv simOk) simService simWallet "V" simReady).2.trace =
        [.getAccountInfo "owner/So11111111111111111111111111111111111111112",
          .getAccountInfo simUsdcAccount] ++ tail ∧
      lookups tail = [] :=
  ⟨((executeSwap_stages_in_order (simEnv simOk) { simService with network := "devnet" }
      simWallet "V" simReady).2 simParams rfl).1 undefinedPropertyError simReady rfl,
    Exists.imp (fun _ h => ⟨h.1, h.2.1⟩)
      (((executeSwap_stages_in_order (simEnv simOk) simService simWallet "V" simReady).2
        simParams rfl).2 simAccounts
        { ledger := { accounts := [simUsdcAccount], pending := [], received := 0 }
          currentSwapParams := some simParams
          trace := [.getAccountInfo "owner/So11111111111111111111111111111111111111112",
            .getAccountInfo simUsdcAccount] } rfl)⟩

/-! ## The market sampler: eviction (C14) -/

/-- The loop of `cleanOldData` over any entries, from any map: what is left of
the map are the entries whose key is not the key of a visited entry below the bound. -/
theorem cleanLoop_eq_filter (bound : Int) (visited : PriceHistory) (map : PriceHistory) :
    visited.foldl
        (fun history entry => if entry.1 < bound then mapDelete history entry.1 else history) map
      = map.filter (fun e => !(visited.any (fun x => decide (x.1 < bound) && x.1 == e.1))) := by
  induction visited generalizing map with
  | nil => simp
  | cons x rest ih =>
    rw [List.foldl_cons, ih]
    by_cases hx : x.1 < bound
    · simp only [hx, if_true, mapDelete, List.filter_filter]
      apply List.filter_congr
      intro e _
      by_cases he : x.1 = e.1
      · simp [he, hx, he ▸ hx]
      · have he2 : ¬ e.1 = x.1 := fun h => he h.symm
        have h1 : (e.1 != x.1) = true := by simp [he2]
        have h2 : (x.1 == e.1) = false := by simp [he]
        simp only [List.any_cons, hx, decide_True, Bool.true_and, h1, h2, Bool.and_true,
          Bool.false_or, Bool.not_false]
    · simp only [hx, if_false]
      apply List.filter_congr
      intro e _
      simp [hx]

/-- C14: for every price history and every current time `now`, after
`cleanOldData` the history holds exactly the entries it held before whose
timestamp is at least `now - 3600000`, in their order and with their values:
every older entry is evicted and no other entry is removed or changed. -/
theorem cleanOldData_keeps_last_hour (now : Int) (priceHistory : PriceHistory) :
    cleanOldData now priceHistory
        = priceHistory.filter (fun entry => decide (now - 3600000 ≤ entry.1)) ∧
    (∀ entry, entry ∈ cleanOldData now priceHistory ↔
      entry ∈ priceHistory ∧ now - 3600000 ≤ entry.1) ∧
    (cleanOldData now priceHistory).Sublist priceHistory := by
  have heq : cleanOldData now priceHistory
      = priceHistory.filter (fun entry => decide (now - 3600000 ≤ entry.1)) := by
    unfold cleanOldData
    rw [cleanLoop_eq_filter]
    apply List.filter_congr
    intro e he
    by_cases hlt : e.1 < now - 3600000
    · have hany : priceHistory.any (fun x => decide (x.1 < now - 3600000) && x.1 == e.1)
          = true := List.any_eq_true.mpr ⟨e, he, by simp [hlt]⟩
      have hle : ¬ now - 3600000 ≤ e.1 := not_le.mpr hlt
      simp [hany, hle]
    · have hle : now - 3600000 ≤ e.1 := not_lt.mp hlt
      have hany : priceHistory.any (fun x => decide (x.1 < now - 3600000) && x.1 == e.1)
          = false := by
        rw [List.any_eq_false]
        intro x _ hx
        simp only [Bool.and_eq_true, decide_eq_true_eq, beq_iff_eq] at hx
        exact hlt (hx.2 ▸ hx.1)
      simp [hany, hle]
  refine ⟨heq, ?_, ?_⟩
  · intro entry
    rw [heq]
    simp [List.mem_filter]
  · rw [heq]
    exact List.filter_sublist _

/-! ## The configuration check (C15) -/

/-- The loop that collects names: the names collected are those that satisfy
the test, in list order, after the names collected before. -/
theorem collect_eq_filter (p : String → Bool) (names collected : List String) :
    names.foldl (fun missingVars varName => if p varName then missingVars ++ [varName]
        else missingVars) collected
      = collected ++ names.filter p := by
  induction names generalizing collected with
  | nil => simp
  | cons name rest ih =>
    rw [List.foldl_cons, ih]
    by_cases hp : p name = true
    · simp [hp]
    · simp [hp]

/-- C15 fails: in test mode the list `requiredVars` is not the list checked.
With `NODE_ENV` = 'test' and nothing else set, `validateConfig(config, [])`
raises and names the five fixed variables, although no name of `requiredVars` is
missing; with the five fixed variables set and `MARKET_ANALYSIS_TEST` = 'true',
`validateConfig(config, ['JUPITER_API_URL'])` returns although that name is
missing. -/
theorem validateConfig_test_mode_ignores_requiredVars :
    validateConfig noInherited testModeEnv (.obj []) [] =
      .error ⟨"Missing required environment variables: HELIUS_RPC_URL HELIUS_API_KEY LOG_LEVEL REDIS_URL REDIS_TOKEN"⟩ ∧
    validateConfig noInherited
      (fun name => if name = "MARKET_ANALYSIS_TEST" then some "true" else productionEnv name)
      (.obj []) ["JUPITER_API_URL"] = .ok () := by
  constructor <;> rfl

/-- C15 as amended: the names checked are those of `varsToCheck`, which is
`requiredVars` unless `NODE_ENV` is 'test' or `MARKET_ANALYSIS_TEST` is 'true',
and then is the fixed list of five names.  `validateConfig` raises
`ConfigurationError` if and only if at least one name checked has a value that is
undefined, null or the empty string (read from the environment, or along the
dotted path in `config` when the name contains '.'); the message lists exactly
the missing names checked, in list order, separated by spaces; when none is
missing it returns. -/
theorem validateConfig_checks_varsToCheck (inherited : JsValue → String → JsValue)
    (processEnv : String → Option String) (config : JsValue) (requiredVars : List String) :
    (varsToCheck processEnv requiredVars =
      if processEnv "NODE_ENV" = some "test" ∨ processEnv "MARKET_ANALYSIS_TEST" = some "true"
      then mvpRequiredVars else requiredVars) ∧
    ((∃ error, validateConfig inherited processEnv config requiredVars = .error error) ↔
      ∃ name ∈ varsToCheck processEnv requiredVars,
        isMissingValue (configValue inherited processEnv config name) = true) ∧
    (∀ error, validateConfig inherited processEnv config requiredVars = .error error →
      error.message = "Missing required environment variables: " ++
        " ".intercalate ((varsToCheck processEnv requiredVars).filter
          (fun name => isMissingValue (configValue inherited processEnv config name)))) ∧
    ((∀ name ∈ varsToCheck processEnv requiredVars,
        isMissingValue (configValue inherited processEnv config name) = false) →
      validateConfig inherited processEnv config requiredVars = .ok ()) := by
  have hrun : validateConfig inherited processEnv config requiredVars =
      if ((varsToCheck processEnv requiredVars).filter
          (fun name => isMissingValue (configValue inherited processEnv config name))).length > 0
      then .error ⟨"Missing required environment variables: " ++
        " ".intercalate ((varsToCheck processEnv requiredVars).filter
          (fun name => isMissingValue (configValue inherited processEnv config name)))⟩
      else .ok () := by
    unfold validateConfig
    simp only [collect_eq_filter, List.nil_append]
  refine ⟨?_, ?_, ?_, ?_⟩
  · unfold varsToCheck
    by_cases h1 : processEnv "NODE_ENV" = some "test" <;>
      by_cases h2 : processEnv "MARKET_ANALYSIS_TEST" = some "true" <;> simp [h1, h2]
  · rw [hrun]
    constructor
    · rintro ⟨error, herr⟩
      by_cases hlen : ((varsToCheck processEnv requiredVars).filter
          (fun name => isMissingValue (configValue inherited processEnv config name))).length > 0
      · obtain ⟨name, hname⟩ := List.exists_mem_of_length_pos hlen
        rw [List.mem_filter] at hname
        exact ⟨name, hname.1, hname.2⟩
      · simp [hlen] at herr
    · rintro ⟨name, hmem, hmiss⟩
      have hin : name ∈ (varsToCheck processEnv requiredVars).filter
          (fun name => isMissingValue (configValue inherited processEnv config name)) :=
        List.mem_filter.mpr ⟨hmem, hmiss⟩
      have hlen := List.length_pos_of_mem hin
      exact ⟨_, by rw [if_pos hlen]⟩
  · intro error herr
    rw [hrun] at herr
    by_cases hlen : ((varsToCheck processEnv requiredVars).filter
        (fun name => isMissingValue (configValue inherited processEnv config name))).length > 0
    · rw [if_pos hlen] at herr
      injection herr with herr
      rw [← herr]
    · rw [if_neg hlen] at herr
      cases herr
  · intro hall
    rw [hrun]
    have hnil : (varsToCheck processEnv requiredVars).filter
        (fun name => isMissingValue (configValue inherited processEnv config name)) = [] := by
      rw [List.filter_eq_nil_iff]
      intro name hmem
      simp [hall name hmem]
    simp [hnil]

/-- C15 as amended, outside test mode with the five fixed names set: the name
'jupiter.apiUrl' is read along its path in `config`, found, and the check returns. -/
theorem validateConfig_checks_varsToCheck_witness :
    validateConfig noInherited productionEnv
      (.obj [("jupiter", .obj [("apiUrl", .str "https://quote-api.jup.ag/v6")])])
      ["HELIUS_RPC_URL", "jupiter.apiUrl"] = .ok () :=
  (validateConfig_checks_varsToCheck noInherited productionEnv
    (.obj [("jupiter", .obj [("apiUrl", .str "https://quote-api.jup.ag/v6")])])
    ["HELIUS_RPC_URL", "jupiter.apiUrl"]).2.2.2 (by decide)

/-! ## The market sampler: the activity flag (C17) -/

/-- C17, at the failing input: `start()` on a new sampler whose first
`updatePrices()` fails ends with that error and leaves `isActive()` true with no
timer scheduled; a later `start()`, with the quote endpoint answering, returns
at once without a quote request and without scheduling a timer. -/
theorem start_failure_leaves_active_without_timer :
    simFailedStart.1 = .error ⟨"Request failed with status code 503"⟩ ∧
    simFailedStart.2.1.isActive = true ∧
    simFailedStart.2.1.intervalId = none ∧
    simSecondStart.1 = .ok () ∧
    simSecondStart.2.1.isActive = true ∧
    simSecondStart.2.1.intervalId = none ∧
    simSecondStart.2.2.trace = simFailedStart.2.2.trace := by
  refine ⟨rfl, rfl, rfl, rfl, rfl, rfl, rfl⟩

end JupiterSwap
